import Mathlib

/-!
Shallow embedding of the midl-mcp server (TypeScript) for specification
verification.  The definitions below are translated from the repository
sources:

* `src/tools/actionable.ts`  — the actionable tool handlers
  (`request-psbt-signature`, `request-transaction-broadcast`,
  `broadcast-transaction`, `prepare-contract-deploy`, `call-contract`,
  `deploy-contract-source`) together with the `sendBTCTransactions` helper
  and the recursive `resolveImports` closure;
* `src/tools/analytical.ts`  — `estimate-btc-transfer-fee` and
  `get-address-transactions`;
* `src/config/midl-config.ts` — `MidlConfigWrapper.validateConfig`;
* `src/config/factory.ts`    — the network mapping of
  `createMidlConfigFromEnv`.

Each asynchronous handler is modelled as a pure function from an
environment (the resolved/rejected outcomes of every external call the
handler awaits) to an `Except String ToolResult` (where `.error` means the
handler's promise rejects with an unhandled exception) together with the
list of external actions it performed, in order.  Machine integers are
modelled as `Nat`/`Int`; 64-bit overflow in the Keccak permutation is made
explicit with `% 2 ^ 64`.
-/

set_option maxRecDepth 2000

namespace MidlMcp

/-- Outcome of an awaited external (asynchronous) call: the promise either
resolves with a value or rejects with an error message. -/
inductive Outcome (α : Type) where
  | ok (v : α)
  | err (msg : String)
deriving Repr, DecidableEq


/-- MCP tool call result: a single text content item plus the `isError`
flag (a missing `isError` field in the source is modelled as `false`). -/
structure ToolResult where
  text : String
  isError : Bool
deriving Repr, DecidableEq


/-! ## String helpers

Executable counterparts of the JavaScript string operations used by the
handlers (`includes`, `startsWith`, `toLowerCase`). -/
/-- `listStartsWith s p` is `true` iff `p` is an initial segment of `s`. -/
def listStartsWith : List Char → List Char → Bool
  | s, pat =>
    match pat, s with
    | b :: bs, a :: as => if a = b then listStartsWith as bs else false
    | [], _ => true
    | _, [] => false


/-- `listContains s p` is `true` iff `p` occurs as a contiguous segment of
`s` (JavaScript `String.prototype.includes`). -/
def listContains : List Char → List Char → Bool
  | [], pat => pat.isEmpty
  | s@(_ :: rest), pat => listStartsWith s pat || listContains rest pat


/-- JavaScript `s.includes(pat)`. -/
def strContains (s pat : String) : Bool :=
  listContains s.data pat.data


/-- JavaScript `s.startsWith(pat)`. -/
def strStartsWith (s pat : String) : Bool :=
  listStartsWith s.data pat.data


/-- JavaScript `s.toLowerCase()` (character-wise, as `String.map`). -/
def strToLower (s : String) : String :=
  String.mk (s.data.map Char.toLower)


/-! ## Keccak-256

`viem`'s `keccak256`, used by the handlers both directly
(`keccak256(signedEvmTx)`) and inside `getContractAddress`.  Lanes are
64-bit words modelled as `Nat` with explicit reduction `% 2 ^ 64`. -/
/-- Truncate to a 64-bit word. -/
def w64 (n : Nat) : Nat := n % (2 ^ 64)


/-- 64-bit left rotation. -/
def rotl64 (n k : Nat) : Nat :=
  w64 ((n <<< k) ||| (n >>> (64 - k)))


/-- Lane access in the 5×5×64 Keccak state, laid out as a 25-element list
with lane `(x, y)` at index `x + 5 * y`. -/
def ln (s : List Nat) (i : Nat) : Nat := s.getD i 0


/-- Keccak θ step. -/
def keccakTheta (s : List Nat) : List Nat :=
  let c := fun x => (ln s x) ^^^ (ln s (x + 5)) ^^^ (ln s (x + 10)) ^^^
      (ln s (x + 15)) ^^^ (ln s (x + 20))
  let d := fun x => (c ((x + 4) % 5)) ^^^ rotl64 (c ((x + 1) % 5)) 1
  (List.range 25).map fun i => (ln s i) ^^^ d (i % 5)


/-- Source index of each target lane under the π permutation: lane
`(x, y)` moves to `(y, 2 x + 3 y mod 5)`; the table is the inverse of that
map on indices `x + 5 y`. -/
def piInvPerm : List Nat :=
  (List.range 25).foldl
    (fun acc i =>
      let x := i % 5
      let y := i / 5
      acc.set (y + 5 * ((2 * x + 3 * y) % 5)) i)
    (List.replicate 25 0)


/-- The `(x, y)` walk generating the ρ rotation schedule, starting at
`(1, 0)` and stepping to `(y, 2 x + 3 y mod 5)`. -/
def rhoWalk : Nat → Nat × Nat
  | 0 => (1, 0)
  | t + 1 =>
    let p := rhoWalk t
    (p.2, (2 * p.1 + 3 * p.2) % 5)


/-- Rotation offsets of the ρ step, indexed by source lane: the lane
visited at step `t` of the walk rotates by the triangular number
`(t + 1) (t + 2) / 2 mod 64`. -/
def rhoOffsets : List Nat :=
  (List.range 24).foldl
    (fun acc t =>
      let p := rhoWalk t
      acc.set (p.1 + 5 * p.2) ((t + 1) * (t + 2) / 2 % 64))
    (List.replicate 25 0)


/-- Keccak ρ and π steps. -/
def keccakRhoPi (s : List Nat) : List Nat :=
  (List.range 25).map fun j =>
    let i := piInvPerm.getD j 0
    rotl64 (ln s i) (rhoOffsets.getD i 0)


/-- Keccak χ step. -/
def keccakChi (s : List Nat) : List Nat :=
  (List.range 25).map fun j =>
    let x := j % 5
    let y := j / 5
    (ln s j) ^^^
      (((2 ^ 64 - 1) ^^^ ln s (5 * y + (x + 1) % 5)) &&& ln s (5 * y + (x + 2) % 5))


/-- One step of the degree-8 LFSR (`x^8 + x^6 + x^5 + x^4 + 1`) that
generates the ι round-constant bits. -/
def lfsrStep (r : Nat) : Nat :=
  let r2 := r <<< 1
  if 256 ≤ r2 then (r2 ^^^ 0x71) % 256 else r2

/-- The `t`-th output bit `rc(t)` of the round-constant LFSR. -/
def rcBit (t : Nat) : Nat :=
  (lfsrStep^[t] 1) &&& 1

/-- The 24 round constants of Keccak-f[1600]:
`RC[i] = Σ rc(j + 7 i) · 2 ^ (2 ^ j - 1)` for `j < 7`. -/
def keccakRC : List Nat :=
  (List.range 24).map fun i =>
    (List.range 7).foldl (fun acc j => acc ^^^ (rcBit (j + 7 * i) <<< (2 ^ j - 1))) 0


/-- One Keccak round (θ, ρ, π, χ, ι). -/
def keccakRound (s : List Nat) (rc : Nat) : List Nat :=
  let t := keccakChi (keccakRhoPi (keccakTheta s))
  (List.range 25).map fun i => if i = 0 then (ln t 0) ^^^ rc else ln t i


/-- The Keccak-f[1600] permutation. -/
def keccakF (s : List Nat) : List Nat :=
  keccakRC.foldl keccakRound s


/-- Little-endian interpretation of at most eight bytes as a lane. -/
def bytesToLane (bs : List Nat) : Nat :=
  bs.foldr (fun b acc => b + 256 * acc) 0


/-- Absorb one 136-byte (rate) block into the state. -/
def keccakAbsorbBlock (s : List Nat) (block : List Nat) : List Nat :=
  keccakF <| (List.range 25).map fun i =>
    if i < 17 then (ln s i) ^^^ bytesToLane ((block.drop (8 * i)).take 8)
    else ln s i


/-- Keccak multi-rate padding with domain byte `0x01` (the original Keccak
used by Ethereum, not the SHA-3 variant). -/
def keccakPad (data : List Nat) : List Nat :=
  let padLen := 136 - data.length % 136
  if padLen = 1 then data ++ [0x81]
  else data ++ [0x01] ++ List.replicate (padLen - 2) 0 ++ [0x80]


/-- Keccak-256 of a byte string (each input byte `< 256`), producing the
32-byte digest. -/
def keccak256 (data : List Nat) : List Nat :=
  let padded := keccakPad data
  let nBlocks := padded.length / 136
  let blocks := (List.range nBlocks).map fun b => ((padded.drop (136 * b)).take 136)
  let final := blocks.foldl keccakAbsorbBlock (List.replicate 25 0)
  (List.range 32).map fun j => ((ln final (j / 8)) >>> (8 * (j % 8))) % 256


/-! ## RLP and contract-address derivation

`viem`'s `getContractAddress` (CREATE): the contract address is the last
20 bytes of `keccak256(rlp([sender, nonce]))`, with the nonce encoded as a
minimal big-endian byte string (empty for nonce 0). -/
/-- Minimal big-endian byte representation of a natural number (empty for
zero).  The first argument is structural fuel; `natBeBytes` supplies
enough. -/
def beBytesAux : Nat → Nat → List Nat
  | 0, _ => []
  | fuel + 1, n => if n = 0 then [] else beBytesAux fuel (n / 256) ++ [n % 256]


/-- Minimal big-endian bytes of `n` (empty for `0`). -/
def natBeBytes (n : Nat) : List Nat := beBytesAux n n


/-- RLP encoding of a byte string. -/
def rlpBytes (bs : List Nat) : List Nat :=
  match bs with
  | [b] => if b < 0x80 then [b] else [0x81, b]
  | _ =>
    if bs.length ≤ 55 then (0x80 + bs.length) :: bs
    else
      let lb := natBeBytes bs.length
      ((0xb7 + lb.length) :: lb) ++ bs


/-- RLP encoding of a list given its already-encoded payload. -/
def rlpListOfPayload (payload : List Nat) : List Nat :=
  if payload.length ≤ 55 then (0xc0 + payload.length) :: payload
  else
    let lb := natBeBytes payload.length
    ((0xf7 + lb.length) :: lb) ++ payload


/-- `viem`'s `getContractAddress({ from, nonce })` for opcode CREATE: the
last 20 bytes of the Keccak-256 hash of `rlp([from, nonce])`. -/
def getContractAddress (sender : List Nat) (nonce : Nat) : List Nat :=
  let payload := rlpBytes sender ++ rlpBytes (natBeBytes nonce)
  (keccak256 (rlpListOfPayload payload)).drop 12


/-- Lowercase hexadecimal digit for a nibble. -/
def nibbleHex (n : Nat) : Char :=
  if n < 10 then Char.ofNat (48 + n) else Char.ofNat (87 + n)


/-- Lowercase hex characters of a byte string. -/
def bytesHexChars (bs : List Nat) : List Char :=
  (bs.map fun b => [nibbleHex (b / 16), nibbleHex (b % 16)]).flatten


/-- EIP-55 checksummed address string (`viem` renders addresses in this
form): each lowercase hex digit is uppercased iff the corresponding nibble
of `keccak256` of the lowercase hex ASCII is at least 8. -/
def checksumAddress (addr : List Nat) : String :=
  let hexChars := bytesHexChars addr
  let h := keccak256 (hexChars.map Char.toNat)
  let cs := (List.range 40).map fun i =>
    let c := hexChars.getD i 'x'
    let nib := if i % 2 = 0 then (h.getD (i / 2) 0) / 16 else (h.getD (i / 2) 0) % 16
    if 8 ≤ nib then c.toUpper else c
  "0x" ++ String.mk cs


/-! ## Configuration wrapper and factory (`src/config/midl-config.ts`,
`src/config/factory.ts`) -/
/-- A configured network (`{ id, network, explorerUrl }` entries built by
`createMidlConfigFromEnv`). -/
structure NetworkCfg where
  id : String
  network : String
  explorerUrl : String
deriving Repr, DecidableEq


/-- A connected account as stored in the config state. -/
structure Account where
  address : String
  publicKey : String
deriving Repr, DecidableEq


/-- The slice of `config.getState()` the wrapper and handlers read:
`connection` truthiness, the configured network (if any) and the accounts
list (`state.accounts?` — an absent array behaves like an empty one for
`find`). -/
structure ConfigState where
  connection : Bool
  network : Option NetworkCfg
  accounts : List Account
deriving Repr, DecidableEq


/-- `MidlConfigWrapper.validateConfig`: throws unless the state has a
connection and a network whose lowercased name contains `"testnet"` or
`"regtest"`. -/
def validateConfig (s : ConfigState) : Except String Unit :=
  if ¬ s.connection then
    .error "MIDL MCP Server requires a pre-connected wallet configuration."
  else
    match s.network with
    | none => .error "No network configured in MIDL state."
    | some net =>
      let networkName := strToLower net.network
      let isTestnet := strContains networkName "testnet" || strContains networkName "regtest"
      if ¬ isTestnet then
        .error ("MIDL MCP Server is currently restricted to testnet/regtest. Detected network: "
          ++ networkName)
      else .ok ()


/-- The `MidlConfigWrapper` constructor: stores the config and runs
`validateConfig`, so construction succeeds exactly when validation does. -/
def mkMidlConfigWrapper (s : ConfigState) : Except String ConfigState :=
  match validateConfig s with
  | .error e => .error e
  | .ok _ => .ok s


/-- `createMidlConfigFromEnv`: the base bitcoin network name derived from
`MIDL_NETWORK` (`"mainnet"` is accepted and mapped to `"bitcoin"`). -/
def factoryBitcoinNetwork (networkId : String) : String :=
  if networkId = "mainnet" then "bitcoin"
  else if networkId = "regtest" then "regtest"
  else "testnet"


/-- `createMidlConfigFromEnv`: the explorer URL for a network id. -/
def factoryExplorerUrl (networkId : String) : String :=
  if networkId = "regtest" then "https://mempool.regtest.midl.xyz/tx/"
  else if networkId = "testnet4" then "https://mempool.space/testnet4/tx/"
  else if networkId = "signet" then "https://mempool.space/signet/tx/"
  else if networkId = "mainnet" then "https://mempool.space/tx/"
  else "https://mempool.space/" ++ networkId ++ "/tx/"


/-- The network entry `createMidlConfigFromEnv` puts into the config. -/
def factoryNetworkCfg (networkId : String) : NetworkCfg :=
  { id := networkId
    network := factoryBitcoinNetwork networkId
    explorerUrl := factoryExplorerUrl networkId }


/-- The config state produced by `createMidlConfigFromEnv` in ADDRESS mode:
a connection is set via `config.setState`, the single configured network is
`factoryNetworkCfg networkId`, and the account is registered twice (ordinals
and payment purposes). -/
def factoryState (networkId address publicKey : String) : ConfigState :=
  { connection := true
    network := some (factoryNetworkCfg networkId)
    accounts := [⟨address, publicKey⟩, ⟨address, publicKey⟩] }


/-! ## Analytical tools (`src/tools/analytical.ts`) -/
/-- The fee oracle response used by `estimate-btc-transfer-fee`
(`getFeeRate(config)` — only `hourFee` is read). -/
structure FeeRates where
  hourFee : Int
deriving Repr, DecidableEq


/-- A UTXO as handed to `coinSelect` (treated opaquely by the handler). -/
structure UTXO where
  txid : String
  vout : Nat
  value : Nat
deriving Repr, DecidableEq


/-- A coin-selection target (`{ address, value }`). -/
structure SelTarget where
  address : String
  value : Nat
deriving Repr, DecidableEq


/-- The result shape of the external `bitcoinselect` `coinSelect` call: on
failure `inputs`/`outputs` are absent (`undefined`), modelled as `none`. -/
structure SelectionOutcome where
  inputs : Option (List UTXO)
  outputs : Option (List SelTarget)
  fee : Nat
deriving Repr, DecidableEq


/-- Environment of `estimate-btc-transfer-fee`: the account snapshot, the
outcomes of the two awaited provider calls, the (external, pure)
`coinSelect` function and the `satoshisToBtc` formatter from the
out-of-tree `utils/formatters` module. -/
structure EstimateEnv where
  accounts : List Account
  defaultAccount : Option Account
  feeRateResult : Outcome FeeRates
  utxosResult : Outcome (List UTXO)
  coinSelect : List UTXO → List SelTarget → Int → SelectionOutcome
  satoshisToBtc : Nat → String


/-- `feeRate || (await getFeeRate(config)).hourFee`: a provided non-zero
fee rate short-circuits; otherwise (absent or `0`, which is falsy) the
oracle is consulted and its rejection propagates. -/
def currentFeeRateOutcome (env : EstimateEnv) (feeRate : Option Int) : Outcome Int :=
  match feeRate with
  | some f =>
    if f = 0 then
      match env.feeRateResult with
      | .ok r => .ok r.hourFee
      | .err m => .err m
    else .ok f
  | none =>
    match env.feeRateResult with
    | .ok r => .ok r.hourFee
    | .err m => .err m


/-- Resolution of the spending account: an explicit `from` address is
looked up in `state.accounts`, otherwise `getDefaultAccount(config)`. -/
def resolveAccount (accounts : List Account) (defaultAccount : Option Account)
    (fromAddr : Option String) : Option Account :=
  match fromAddr with
  | some f => accounts.find? fun a => a.address = f
  | none => defaultAccount


/-- The `estimate-btc-transfer-fee` handler.  Note that it has no
`try`/`catch`: the two awaits (`getFeeRate`, `getUTXOs`) reject straight
through to the caller, modelled as `.error`. -/
def estimateBtcTransferFee (env : EstimateEnv) (recipients : List (String × Nat))
    (feeRate : Option Int) (fromAddr : Option String) : Except String ToolResult :=
  match resolveAccount env.accounts env.defaultAccount fromAddr with
  | none => .ok ⟨"Error: No account found for the specified address.", true⟩
  | some _account =>
    match currentFeeRateOutcome env feeRate with
    | .err m => .error m
    | .ok currentFeeRate =>
      match env.utxosResult with
      | .err m => .error m
      | .ok utxos =>
        let targets := recipients.map fun r => SelTarget.mk r.1 r.2
        let selected := env.coinSelect utxos targets currentFeeRate
        if selected.inputs.isNone || selected.outputs.isNone then
          .ok ⟨"Error: Insufficient funds or no suitable UTXOs found for this transfer.", true⟩
        else
          .ok ⟨"Estimated Fee: " ++ (toString selected.fee ++ (" satoshis ("
              ++ (env.satoshisToBtc selected.fee ++ (" BTC)"
              ++ ("\nFee Rate: " ++ (toString currentFeeRate ++ (" sat/vB"
              ++ ("\nInputs: " ++ (toString ((selected.inputs.getD []).length)
              ++ ("\nOutputs: " ++ toString ((selected.outputs.getD []).length))))))))))), false⟩


/-- One transaction record of the mempool REST response consumed by
`get-address-transactions`. -/
structure TxRec where
  txid : String
  version : Nat
  voutValues : List Nat
  confirmed : Bool
  blockHeight : Option Nat
deriving Repr, DecidableEq


/-- A `fetch` response: HTTP `ok` flag, `statusText`, and the outcome of
`res.json()` (which may itself reject). -/
structure FetchJsonRes where
  ok : Bool
  statusText : String
  body : Outcome (List TxRec)


/-- Environment of `get-address-transactions`. -/
structure AddrTxEnv where
  fetchResult : Outcome FetchJsonRes
  satoshisToBtc : Nat → String


/-- Formatting of one transaction line in `get-address-transactions`. -/
def formatTxLine (env : AddrTxEnv) (tx : TxRec) : String :=
  "- ID: " ++ tx.txid ++ "\n  Value: " ++ env.satoshisToBtc (tx.voutValues.foldl (· + ·) 0)
    ++ " BTC\n  Status: " ++ (if tx.confirmed then "Confirmed" else "Unconfirmed")
    ++ " (Block " ++ (match tx.blockHeight with | some h => toString h | none => "N/A") ++ ")"


/-- The `get-address-transactions` handler: the whole body is inside
`try`/`catch`, so every failure resolves to a structured error result. -/
def getAddressTransactions (env : AddrTxEnv) (address : String) (limit : Nat) :
    Except String ToolResult :=
  match env.fetchResult with
  | .err m => .ok ⟨"Error fetching transactions: " ++ m, true⟩
  | .ok res =>
    if ¬ res.ok then
      .ok ⟨"Error fetching transactions: Failed to fetch transactions: " ++ res.statusText, true⟩
    else
      match res.body with
      | .err m => .ok ⟨"Error fetching transactions: " ++ m, true⟩
      | .ok txs =>
        let shown := txs.take limit
        .ok ⟨"Recent Transactions for " ++ address ++ ":\n\n"
            ++ String.intercalate "\n\n" (shown.map (formatTxLine env)), false⟩


/-! ## Actionable tools (`src/tools/actionable.ts`)

Each handler returns its result together with the ordered list of external
actions it performed; the sensitive ones (`signPSBT`, `broadcastTransaction`,
`finalizeBTCTransaction`, `signIntention`, `eth_sendBTCTransactions`) and
the elicitation requests appear as events so that gating and ordering can
be stated. -/
/-- `SignMessageProtocol` of `@midl/core`. -/
inductive SignProto where
  | bip322
  | ecdsa
deriving Repr, DecidableEq


/-- The single JSON-RPC request issued by the `sendBTCTransactions` helper. -/
structure RpcRequest where
  method : String
  serializedTransactions : List (List Nat)
  btcTransaction : String
  retryCount : Nat
deriving Repr, DecidableEq


/-- External actions performed by handlers, in execution order. -/
inductive Event where
  | elicit (message : String)
  | signPSBT (psbt : String) (signerAddress : String) (inputIndexes : List Nat)
  | broadcast (txHex : String)
  | addIntention
  | finalizeBTC (feeRate : Option Int)
  | signIntention (txId : String) (proto : SignProto)
  | sendBTC (req : RpcRequest)
  | waitReceipt (hash : List Nat) (timeoutMs : Nat)
  | fetch (url : String)
deriving Repr, DecidableEq


/-- Is the event one of the sensitive (fund-moving) operations? -/
def Event.isSensitive : Event → Bool
  | .signPSBT _ _ _ => true
  | .broadcast _ => true
  | .finalizeBTC _ => true
  | .signIntention _ _ => true
  | .sendBTC _ => true
  | _ => false


/-- Does the trace contain an elicitation (approval) request at all? -/
def hasElicit (evs : List Event) : Bool :=
  evs.any fun e => match e with | .elicit _ => true | _ => false


/-- The structured elicitation response object, when the channel resolves
with an object at all: each tool reads one boolean field
(`approved` / `confirm`); an absent field is `none`. -/
structure ApprovalForm where
  approved : Option Bool
  confirm : Option Bool
deriving Repr, DecidableEq


/-- JavaScript truthiness of an optional boolean field. -/
def jsTruthy (o : Option Bool) : Bool := o.getD false


/-- `feeRate ? { feeRate } : {}` — a present, non-zero (truthy) fee rate is
forwarded to `finalizeBTCTransaction`, otherwise no option is passed. -/
def finalizeFeeArg (feeRate : Option Int) : Option Int :=
  match feeRate with
  | some f => if f = 0 then none else some f
  | none => none


/-- `finalizeBTCTransaction` response: `{ tx?: { id, hex }, psbt }`. -/
structure TxInfo where
  id : String
  hex : String
deriving Repr, DecidableEq


/-- Result of `finalizeBTCTransaction`. -/
structure FinalizeResult where
  tx : Option TxInfo
  psbt : String
deriving Repr, DecidableEq


/-- `btcTx.tx?.id || ""`. -/
def btcTxIdOf (f : FinalizeResult) : String :=
  match f.tx with
  | some t => t.id
  | none => ""


/-- `btcTx.tx?.hex || ""`. -/
def btcTxHexOf (f : FinalizeResult) : String :=
  match f.tx with
  | some t => t.hex
  | none => ""


/-- The elicitation message of `request-psbt-signature`. -/
def signElicitMessage : String :=
  "Please confirm that you want to SIGN this Bitcoin transaction."


/-- The elicitation message of `request-transaction-broadcast`. -/
def broadcastElicitMessage : String :=
  "CRITICAL: You are about to BROADCAST a transaction to the Bitcoin Network. This action is irreversible."


/-- Environment of `request-psbt-signature`: availability of
`extra.sendRequest`, the outcome of the elicitation round-trip (`.ok none`
models a falsy response object), the account snapshot and the outcome of
`signPSBT`. -/
structure SignEnv where
  sendRequestAvailable : Bool
  elicited : Outcome (Option ApprovalForm)
  accounts : List Account
  defaultAccount : Option Account
  signPSBTResult : Outcome String
deriving Repr


/-- The `request-psbt-signature` handler. -/
def requestPsbtSignature (env : SignEnv) (psbt : String) (address : Option String) :
    Except String ToolResult × List Event :=
  if env.sendRequestAvailable then
    match env.elicited with
    | .err m =>
      (.ok ⟨"Error signing PSBT: " ++ m, true⟩, [.elicit signElicitMessage])
    | .ok confirmed =>
      match confirmed with
      | none =>
        (.ok ⟨"Signature request declined by user.", true⟩, [.elicit signElicitMessage])
      | some form =>
        if ¬ jsTruthy form.approved then
          (.ok ⟨"Signature request declined by user.", true⟩, [.elicit signElicitMessage])
        else
          match resolveAccount env.accounts env.defaultAccount address with
          | none =>
            (.ok ⟨"Error signing PSBT: No account found for signing.", true⟩,
              [.elicit signElicitMessage])
          | some account =>
            match env.signPSBTResult with
            | .err m =>
              (.ok ⟨"Error signing PSBT: " ++ m, true⟩,
                [.elicit signElicitMessage, .signPSBT psbt account.address [0]])
            | .ok signedRes =>
              (.ok ⟨"PSBT signed successfully.\n\nSigned PSBT (Base64):\n" ++ signedRes, false⟩,
                [.elicit signElicitMessage, .signPSBT psbt account.address [0]])
  else
    (.ok ⟨"Error: Human elicitation required for signing but not supported by client.", true⟩, [])


/-- Environment of `request-transaction-broadcast`. -/
structure BroadcastGateEnv where
  sendRequestAvailable : Bool
  elicited : Outcome (Option ApprovalForm)
  broadcastResult : Outcome String
  explorerUrl : String
deriving Repr


/-- The `request-transaction-broadcast` handler. -/
def requestTransactionBroadcast (env : BroadcastGateEnv) (txHex : String) :
    Except String ToolResult × List Event :=
  if env.sendRequestAvailable then
    match env.elicited with
    | .err m =>
      (.ok ⟨"Error broadcasting transaction: " ++ m, true⟩, [.elicit broadcastElicitMessage])
    | .ok confirmed =>
      match confirmed with
      | none =>
        (.ok ⟨"Broadcast cancelled by user.", true⟩, [.elicit broadcastElicitMessage])
      | some form =>
        if ¬ jsTruthy form.confirm then
          (.ok ⟨"Broadcast cancelled by user.", true⟩, [.elicit broadcastElicitMessage])
        else
          match env.broadcastResult with
          | .err m =>
            (.ok ⟨"Error broadcasting transaction: " ++ m, true⟩,
              [.elicit broadcastElicitMessage, .broadcast txHex])
          | .ok txId =>
            (.ok ⟨"Transaction broadcasted successfully!\n\nTransaction ID: " ++ (txId
                ++ ("\nView on Explorer: " ++ (env.explorerUrl ++ txId))), false⟩,
              [.elicit broadcastElicitMessage, .broadcast txHex])
  else
    (.ok ⟨"Error: Human elicitation required for broadcasting but not supported by client.", true⟩,
      [])


/-- Environment of the ungated `broadcast-transaction` tool. -/
structure BroadcastEnv where
  broadcastResult : Outcome String
  explorerUrl : Option String
deriving Repr


/-- The `broadcast-transaction` tool: it calls `broadcastTransaction`
directly, with no elicitation round-trip of any kind. -/
def broadcastTransactionTool (env : BroadcastEnv) (txHex : String) :
    Except String ToolResult × List Event :=
  match env.broadcastResult with
  | .err m => (.ok ⟨"Error broadcasting: " ++ m, true⟩, [.broadcast txHex])
  | .ok txId =>
    (.ok ⟨"✅ Transaction broadcasted successfully!\n\nTransaction ID: " ++ (txId
        ++ ("\nExplorer: " ++ ((env.explorerUrl.getD "") ++ txId))), false⟩,
      [.broadcast txHex])


/-- The `sendBTCTransactions` helper: a single `client.request` call with
method `eth_sendBTCTransactions`, params
`[serializedTransactions, btcTransaction]` and `retryCount: 0`. -/
def sendBTCTransactionsReq (serializedTransactions : List (List Nat))
    (btcTransaction : String) : RpcRequest :=
  { method := "eth_sendBTCTransactions"
    serializedTransactions := serializedTransactions
    btcTransaction := btcTransaction
    retryCount := 0 }


/-- Hex rendering (`0x…`) of a byte string, as `viem` prints hashes. -/
def bytesToHex0x (bs : List Nat) : String :=
  "0x" ++ String.mk (bytesHexChars bs)


/-! ### `prepare-contract-deploy` -/
/-- Environment of `prepare-contract-deploy`: the config network, the
outcomes of `encodeDeployData`, `addTxIntention`, `finalizeBTCTransaction`
and `getTransactionCount`, plus the deployer's EVM address (the byte
content of `getEVMAddress(getDefaultAccount(config), network)`). -/
structure PrepareDeployEnv where
  network : NetworkCfg
  encodeDeployResult : Outcome String
  addIntentionResult : Outcome Unit
  finalizeResult : Outcome FinalizeResult
  evmAddress : List Nat
  nonceResult : Outcome Nat
deriving Repr


/-- Success text of `prepare-contract-deploy`, grouped around the two
computed addresses. -/
def prepareDeploySuccessText (predicted : String) (deployer : String)
    (psbt : String) (networkId : String) : String :=
  "Contract deployment PSBT prepared successfully.\n\n" ++
    ("Predicted Contract Address: " ++ (predicted ++ ("\nDeployer EVM Address: " ++
    (deployer ++ ("\n\nPSBT (Base64):\n" ++ (psbt ++
    ("\n\nThis transaction anchors a contract deployment on the MIDL EVM chain (" ++
    (networkId ++
    ").\nPlease use 'request-psbt-signature' and then 'request-transaction-broadcast' to complete the deployment."))))))))


/-- The deploy-data preparation of `prepare-contract-deploy`: prefix the
bytecode with `0x` if needed; with constructor arguments
(`args && args.length > 0`) require an ABI (else throw) and run
`encodeDeployData`. -/
def prepareDeployData (env : PrepareDeployEnv) (bytecode : String)
    (argsCount : Option Nat) (abiProvided : Bool) : Outcome String :=
  let data0 := if strStartsWith bytecode "0x" then bytecode else "0x" ++ bytecode
  match argsCount with
  | some n =>
    if 0 < n then
      if ¬ abiProvided then .err "ABI is required when constructor arguments are provided."
      else env.encodeDeployResult
    else .ok data0
  | none => .ok data0


/-- The `prepare-contract-deploy` handler.  The nonce is observed via
`getTransactionCount`, and the predicted address is
`getContractAddress({ from: evmAddress, nonce })`. -/
def prepareContractDeploy (env : PrepareDeployEnv) (bytecode : String)
    (argsCount : Option Nat) (abiProvided : Bool) (feeRate : Option Int) :
    Except String ToolResult × List Event :=
  match prepareDeployData env bytecode argsCount abiProvided with
  | .err m => (.ok ⟨"Error preparing contract deployment: " ++ m, true⟩, [])
  | .ok _data =>
    match env.addIntentionResult with
    | .err m => (.ok ⟨"Error preparing contract deployment: " ++ m, true⟩, [.addIntention])
    | .ok _ =>
      match env.finalizeResult with
      | .err m =>
        (.ok ⟨"Error preparing contract deployment: " ++ m, true⟩,
          [.addIntention, .finalizeBTC (finalizeFeeArg feeRate)])
      | .ok btcTx =>
        match env.nonceResult with
        | .err m =>
          (.ok ⟨"Error preparing contract deployment: " ++ m, true⟩,
            [.addIntention, .finalizeBTC (finalizeFeeArg feeRate)])
        | .ok nonce =>
          let predicted := getContractAddress env.evmAddress nonce
          (.ok ⟨prepareDeploySuccessText (checksumAddress predicted)
              (checksumAddress env.evmAddress) btcTx.psbt env.network.id, false⟩,
            [.addIntention, .finalizeBTC (finalizeFeeArg feeRate)])


/-! ### `call-contract` -/
/-- Environment of `call-contract`. -/
structure CallEnv where
  network : NetworkCfg
  evmChainId : Nat
  encodeFunctionResult : Outcome String
  addIntentionResult : Outcome Unit
  finalizeResult : Outcome FinalizeResult
  signIntentionResult : Outcome (List Nat)
  sendResult : Outcome Unit
  receiptBlockResult : Outcome Nat
deriving Repr


/-- Blockscout transaction URL chosen by `call-contract`. -/
def callBlockscoutUrl (networkId : String) (evmTxHash : String) : String :=
  if networkId = "regtest" then "https://blockscout.regtest.midl.xyz/tx/" ++ evmTxHash
  else "https://blockscout.midl.xyz/tx/" ++ evmTxHash


/-- Success text of `call-contract`. -/
def callSuccessText (contractAddress functionName btcTxId evmTxHash receiptInfo
    blockscoutUrl : String) : String :=
  "✅ Contract call executed successfully!\n\nContract: " ++ (contractAddress ++
    ("\nFunction: " ++ (functionName ++ ("\nBTC Transaction ID: " ++ (btcTxId ++
    ("\nEVM Transaction Hash: " ++ (evmTxHash ++ (receiptInfo ++
    ("\n\nView on Blockscout: " ++ blockscoutUrl)))))))))


/-- The note `call-contract` and `deploy-contract-source` emit when the
bounded receipt wait fails or times out. -/
def receiptPendingNote : String :=
  "\nNote: Transaction submitted, waiting for confirmation..."


/-- The `call-contract` handler: encode → `addTxIntention` →
`finalizeBTCTransaction` → `signIntention` (BIP-322, bound to the
finalized transaction id) → `eth_sendBTCTransactions` →
`waitForTransactionReceipt` with a 60 000 ms timeout whose failure does
not fail the tool. -/
def callContract (env : CallEnv) (contractAddress : String) (functionName : String)
    (value : Option Int) (feeRate : Option Int) : Except String ToolResult × List Event :=
  let _ := value
  match env.encodeFunctionResult with
  | .err m => (.ok ⟨"Error calling contract: " ++ m, true⟩, [])
  | .ok _data =>
    match env.addIntentionResult with
    | .err m => (.ok ⟨"Error calling contract: " ++ m, true⟩, [.addIntention])
    | .ok _ =>
      match env.finalizeResult with
      | .err m =>
        (.ok ⟨"Error calling contract: " ++ m, true⟩,
          [.addIntention, .finalizeBTC (finalizeFeeArg feeRate)])
      | .ok btcTx =>
        let btcTxId := btcTxIdOf btcTx
        let btcTxHex := btcTxHexOf btcTx
        match env.signIntentionResult with
        | .err m =>
          (.ok ⟨"Error calling contract: " ++ m, true⟩,
            [.addIntention, .finalizeBTC (finalizeFeeArg feeRate),
             .signIntention btcTxId .bip322])
        | .ok signedEvmTx =>
          let evmTxHash := keccak256 signedEvmTx
          let req := sendBTCTransactionsReq [signedEvmTx] btcTxHex
          match env.sendResult with
          | .err m =>
            (.ok ⟨"Error calling contract: " ++ m, true⟩,
              [.addIntention, .finalizeBTC (finalizeFeeArg feeRate),
               .signIntention btcTxId .bip322, .sendBTC req])
          | .ok _ =>
            let receiptInfo :=
              match env.receiptBlockResult with
              | .ok bn => "\nConfirmed at block: " ++ toString bn
              | .err _ => receiptPendingNote
            let isErr := false
            (.ok ⟨callSuccessText contractAddress functionName btcTxId
                (bytesToHex0x evmTxHash) receiptInfo
                (callBlockscoutUrl env.network.id (bytesToHex0x evmTxHash)), isErr⟩,
              [.addIntention, .finalizeBTC (finalizeFeeArg feeRate),
               .signIntention btcTxId .bip322, .sendBTC req,
               .waitReceipt evmTxHash 60000])


/-! ### `deploy-contract-source` -/
/-- One entry of `output.errors` from `solc.compile`. -/
structure SolcError where
  severity : String
  formattedMessage : String
deriving Repr, DecidableEq


/-- One compiled contract artifact (`evm.bytecode.object`; the ABI is
treated opaquely). -/
structure Artifact where
  bytecodeObject : String
deriving Repr, DecidableEq


/-- The parsed `solc` output: an optional `errors` array and the
`contracts` object (file name → contract name → artifact), with the
JavaScript object key order made explicit as list order. -/
structure CompileOutput where
  errors : Option (List SolcError)
  contracts : List (String × List (String × Artifact))
deriving Repr, DecidableEq


/-- JavaScript `a || b` on optional strings (empty strings are falsy). -/
def jsOrStr (a b : Option String) : Option String :=
  match a with
  | some s => if s = "" then b else some s
  | none => b


/-- Truthiness of an optional string (`undefined` and `""` are falsy). -/
def jsTruthyStr (o : Option String) : Bool :=
  match o with
  | some s => s ≠ ""
  | none => false


/-- The effective target contract name: the provided `contractName` if
truthy, else the last contract defined in the first source file of the
compiler output (the source's heuristic for the main contract). -/
def resolveTargetName (output : CompileOutput) (contractName : Option String) :
    Option String :=
  if jsTruthyStr contractName then contractName
  else
    match output.contracts with
    | [] => contractName
    | (_, fileContracts) :: _ =>
      match (fileContracts.map Prod.fst).getLast? with
      | some n => some n
      | none => contractName


/-- The artifact lookup loop: the first file whose contract map has the
target name. -/
def findArtifact (output : CompileOutput) (targetName : Option String) :
    Option Artifact :=
  match targetName with
  | none => none
  | some t =>
    output.contracts.findSome? fun fc =>
      (fc.2.find? fun p => p.1 = t).map Prod.snd


/-- All contract names in the compiler output, for the not-found message. -/
def allContractNames (output : CompileOutput) : List String :=
  output.contracts.flatMap fun fc => fc.2.map Prod.fst


/-- The compilation errors with severity `"error"`. -/
def hardErrors (output : CompileOutput) : List SolcError :=
  match output.errors with
  | none => []
  | some es => es.filter fun e => e.severity = "error"


/-- Environment of `deploy-contract-source`: outcomes of the import
resolution phase, `solc.compile` + `JSON.parse`, `encodeDeployData`,
`getTransactionCount`, `addTxIntention`, `finalizeBTCTransaction`,
`signIntention`, `eth_sendBTCTransactions`, `waitForTransactionReceipt`
and the Blockscout verification `fetch` (HTTP ok flag and response text),
plus the config network and the deployer's EVM address bytes. -/
structure DeployEnv where
  resolvePhase : Outcome Unit
  compileResult : Outcome CompileOutput
  network : NetworkCfg
  evmChainId : Nat
  encodeDeployResult : Outcome String
  evmAddress : List Nat
  nonceResult : Outcome Nat
  addIntentionResult : Outcome Unit
  finalizeResult : Outcome FinalizeResult
  signIntentionResult : Outcome (List Nat)
  sendResult : Outcome Unit
  receiptBlockResult : Outcome Nat
  verifyResult : Outcome (Bool × String)
deriving Repr


/-- Blockscout base URL chosen by `deploy-contract-source`. -/
def deployBlockscoutBase (networkId : String) : String :=
  if networkId = "regtest" then "https://blockscout.regtest.midl.xyz"
  else "https://blockscout.midl.xyz"


/-- The verification note appended to the deploy success text. -/
def verificationInfoOf (v : Outcome (Bool × String)) : String :=
  match v with
  | .ok (true, _) => "\n✅ Contract verification submitted to Blockscout"
  | .ok (false, errorText) =>
    "\n⚠️ Verification failed: " ++ String.mk (errorText.data.take 100)
  | .err m => "\n⚠️ Auto-verification skipped: " ++ m


/-- Success text of `deploy-contract-source`, grouped around the predicted
address and the receipt note. -/
def deploySuccessText (targetName : String) (predicted : String) (btcTxId : String)
    (evmTxHash : String) (receiptInfo : String) (verificationInfo : String)
    (blockscoutUrl : String) (explorerUrl : String) : String :=
  "✅ Contract deployed successfully!\n\nContract Name: " ++ (targetName ++
    ("\nContract Address: " ++ (predicted ++ ("\nBTC Transaction ID: " ++ (btcTxId ++
    ("\nEVM Transaction Hash: " ++ (evmTxHash ++ (receiptInfo ++ (verificationInfo ++
    ("\n\nView on Blockscout: " ++ (blockscoutUrl ++ ("\nView BTC tx: " ++ (explorerUrl ++
    btcTxId)))))))))))))


/-- The `deploy-contract-source` handler (second half, after the
compilation phase): predicts the deployment address from the observed
nonce, then finalizes the Bitcoin transaction, signs the intention with
the finalized transaction id under BIP-322, submits both in one paired
RPC call and waits (bounded, non-fatally) for the receipt. -/
def deployContractSource (env : DeployEnv) (contractName : Option String)
    (feeRate : Option Int) : Except String ToolResult × List Event :=
  match env.resolvePhase with
  | .err m => (.ok ⟨"Error in deploy-contract-source: " ++ m, true⟩, [])
  | .ok _ =>
    match env.compileResult with
    | .err m => (.ok ⟨"Error in deploy-contract-source: " ++ m, true⟩, [])
    | .ok output =>
      match hardErrors output with
      | e :: _ =>
        (.ok ⟨"Compilation Error: " ++ e.formattedMessage, true⟩, [])
      | [] =>
        let targetName := resolveTargetName output contractName
        match findArtifact output targetName with
        | none =>
          (.ok ⟨"Contract \"" ++ ((jsOrStr targetName contractName).getD "undefined")
              ++ "\" not found. Available: "
              ++ String.intercalate ", " (allContractNames output), true⟩, [])
        | some _artifact =>
          match env.encodeDeployResult with
          | .err m => (.ok ⟨"Error in deploy-contract-source: " ++ m, true⟩, [])
          | .ok _data =>
            match env.nonceResult with
            | .err m => (.ok ⟨"Error in deploy-contract-source: " ++ m, true⟩, [])
            | .ok nonce =>
              let predicted := getContractAddress env.evmAddress nonce
              match env.addIntentionResult with
              | .err m =>
                (.ok ⟨"Error in deploy-contract-source: " ++ m, true⟩, [.addIntention])
              | .ok _ =>
                match env.finalizeResult with
                | .err m =>
                  (.ok ⟨"Error in deploy-contract-source: " ++ m, true⟩,
                    [.addIntention, .finalizeBTC (finalizeFeeArg feeRate)])
                | .ok btcTx =>
                  let btcTxId := btcTxIdOf btcTx
                  let btcTxHex := btcTxHexOf btcTx
                  match env.signIntentionResult with
                  | .err m =>
                    (.ok ⟨"Error in deploy-contract-source: " ++ m, true⟩,
                      [.addIntention, .finalizeBTC (finalizeFeeArg feeRate),
                       .signIntention btcTxId .bip322])
                  | .ok signedEvmTx =>
                    let evmTxHash := keccak256 signedEvmTx
                    let req := sendBTCTransactionsReq [signedEvmTx] btcTxHex
                    match env.sendResult with
                    | .err m =>
                      (.ok ⟨"Error in deploy-contract-source: " ++ m, true⟩,
                        [.addIntention, .finalizeBTC (finalizeFeeArg feeRate),
                         .signIntention btcTxId .bip322, .sendBTC req])
                    | .ok _ =>
                      let receiptInfo :=
                        match env.receiptBlockResult with
                        | .ok bn => "\nContract deployed at block: " ++ toString bn
                        | .err _ => receiptPendingNote
                      let base := deployBlockscoutBase env.network.id
                      let verifyUrl := base ++ "/api/v2/smart-contracts/"
                          ++ checksumAddress predicted ++ "/verification/via/flattened-code"
                      (.ok ⟨deploySuccessText (targetName.getD "undefined")
                          (checksumAddress predicted) btcTxId (bytesToHex0x evmTxHash)
                          receiptInfo (verificationInfoOf env.verifyResult)
                          (base ++ "/address/" ++ checksumAddress predicted)
                          env.network.explorerUrl, false⟩,
                        [.addIntention, .finalizeBTC (finalizeFeeArg feeRate),
                         .signIntention btcTxId .bip322, .sendBTC req,
                         .waitReceipt evmTxHash 60000, .fetch verifyUrl])


/-! ### The recursive remote import resolver (`resolveImports`)

The closure shared by `deploy-contract-source` and `verify-contract`: it
scans the source for `import "…"` statements (the regular expression
`import\s+["']([^"']+)["']` with the `g` flag), fetches
`@openzeppelin/`-prefixed paths from GitHub, memoizes them in the shared
`sources` map and recurses into each fetched body.  The code has no
recursion-depth or byte budget; the `fuel` argument below is purely an
artifact of the embedding (total functions) and is chosen large enough to
never run out in any statement about the model. -/
/-- ASCII whitespace as matched by the JavaScript `\s` class (the
non-ASCII members are irrelevant to the sources involved). -/
def wsChar (c : Char) : Bool :=
  c = ' ' || c = '\t' || c = '\n' || c = '\r'


/-- A quote character of the `["']` class. -/
def quoteChar (c : Char) : Bool :=
  c.toNat = 34 || c.toNat = 39


/-- Attempt to match `import\s+["']([^"']+)["']` at the head of the input;
on success return the captured path and the remaining input after the
match. -/
def matchImportAt (cs : List Char) : Option (String × List Char) :=
  match cs with
  | 'i' :: 'm' :: 'p' :: 'o' :: 'r' :: 't' :: rest =>
    let ws := rest.takeWhile wsChar
    if ws.isEmpty then none
    else
      match rest.drop ws.length with
      | q :: rest2 =>
        if quoteChar q then
          let captured := rest2.takeWhile fun c => ¬ quoteChar c
          if captured.isEmpty then none
          else
            match rest2.drop captured.length with
            | q2 :: rest3 =>
              if quoteChar q2 then some (String.mk captured, rest3) else none
            | [] => none
        else none
      | [] => none
  | _ => none


/-- Left-to-right global scan of the regular expression (the engine
advances past each full match, and by one character after a failed
attempt).  The fuel is at least the input length, so it never runs out. -/
def findImportsAux : Nat → List Char → List String
  | 0, _ => []
  | _ + 1, [] => []
  | fuel + 1, c :: rest =>
    match matchImportAt (c :: rest) with
    | some (path, after) => path :: findImportsAux fuel after
    | none => findImportsAux fuel rest


/-- All import paths captured in a source text, in order. -/
def findImports (s : String) : List String :=
  findImportsAux (s.data.length + 1) s.data


/-- The GitHub raw URL for an `@openzeppelin/` import
(`importPath.replace("@openzeppelin/", "")` appended to the base). -/
def ozUrl (importPath : String) : String :=
  "https://raw.githubusercontent.com/OpenZeppelin/openzeppelin-contracts/master/"
    ++ String.mk (importPath.data.drop 14)


/-- The remote fetch oracle: `.err` models a rejected `fetch`, `.ok none`
a response with `res.ok` false (silently skipped), `.ok (some body)` a
successful download. -/
structure FetchEnv where
  fetch : String → Outcome (Option String)


/-- The mutually recursive worklist of `resolveImports`: process each
captured path of the current content; unseen `@openzeppelin/` paths are
fetched, memoized and recursed into, other paths are skipped.  Returns the
final `sources` map together with the number of network fetches performed.
There is no cap in the source: the fuel parameter only makes the function
total, every recursive call decreases it. -/
def resolvePaths : Nat → FetchEnv → List (String × String) → List String →
    Except String (List (String × String) × Nat)
  | _, _, sources, [] => .ok (sources, 0)
  | 0, _, _, _ :: _ => .error "fuel exhausted (embedding artifact)"
  | fuel + 1, env, sources, p :: rest =>
    if (sources.find? fun q => q.1 = p).isNone && strStartsWith p "@openzeppelin/" then
      match env.fetch (ozUrl p) with
      | .err m => .error m
      | .ok none => resolvePaths fuel env sources rest
      | .ok (some body) =>
        match resolvePaths fuel env (sources ++ [(p, body)]) (findImports body) with
        | .error m => .error m
        | .ok (s2, n2) =>
          match resolvePaths fuel env s2 rest with
          | .error m => .error m
          | .ok (s3, n3) => .ok (s3, 1 + n2 + n3)
    else resolvePaths fuel env sources rest


/-- `resolveImports(sourceCode)` as called by `deploy-contract-source`:
the `sources` map starts with `Contract.sol`, and the scan starts from the
top-level source. -/
def resolveImports (fuel : Nat) (env : FetchEnv) (sourceCode : String) :
    Except String (List (String × String) × Nat) :=
  resolvePaths fuel env [("Contract.sol", sourceCode)] (findImports sourceCode)


/-! ## Auxiliary definitions for the statements below -/
/-- The affirmative condition of the signing gate: the channel is
available, resolved with an object, and its `approved` field is truthy. -/
def signAffirmative (env : SignEnv) : Bool :=
  env.sendRequestAvailable &&
    match env.elicited with
    | .ok (some form) => jsTruthy form.approved
    | _ => false


/-- The affirmative condition of the broadcast gate (`confirm` field). -/
def broadcastAffirmative (env : BroadcastGateEnv) : Bool :=
  env.sendRequestAvailable &&
    match env.elicited with
    | .ok (some form) => jsTruthy form.confirm
    | _ => false


/-- Is the event the paired-submission RPC call? -/
def isSendBTCEvent : Event → Bool
  | .sendBTC _ => true
  | _ => false


/-- The deployer address of the classic CREATE test vector
(`0x6ac7ea33f8831ea9dcc53393aaa88b25a785dbf0`). -/
def exampleSender : List Nat :=
  [0x6a, 0xc7, 0xea, 0x33, 0xf8, 0x83, 0x1e, 0xa9, 0xdc, 0xc5,
   0x33, 0x93, 0xaa, 0xa8, 0x8b, 0x25, 0xa7, 0x85, 0xdb, 0xf0]


/-- An adversarial chain of distinct OpenZeppelin-style import paths. -/
def chainPath (i : Nat) : String :=
  "@openzeppelin/contracts/chain" ++ (toString i ++ ".sol")


/-- A source file whose only statement imports the next link of the chain. -/
def chainContent (i : Nat) : String :=
  "import \"" ++ (chainPath (i + 1) ++ "\";")


/-- A fetch oracle serving the chain: link `i` resolves to a source
importing link `i + 1` while `i < d`, and to an import-free leaf at the
end; every response is a successful HTTP download. -/
def chainFetchEnv (d : Nat) : FetchEnv :=
  ⟨fun url =>
    match (List.range (d + 2)).find? (fun i => url = ozUrl (chainPath i)) with
    | some i => .ok (some (if i < d then chainContent i else "// leaf"))
    | none => .ok none⟩


/-- Concrete environment for the ungated `broadcast-transaction` run. -/
def c1BroadcastEnv : BroadcastEnv :=
  { broadcastResult := .ok "txid123"
    explorerUrl := some "https://mempool.regtest.midl.xyz/tx/" }


/-- Concrete environment for the ungated `call-contract` run. -/
def c1CallEnv : CallEnv :=
  { network := ⟨"regtest", "regtest", "https://mempool.regtest.midl.xyz/tx/"⟩
    evmChainId := 777
    encodeFunctionResult := .ok "0xdata"
    addIntentionResult := .ok ()
    finalizeResult := .ok ⟨some ⟨"btcid", "btchex"⟩, "psbt64"⟩
    signIntentionResult := .ok [1, 2, 3]
    sendResult := .ok ()
    receiptBlockResult := .ok 5 }


/-- Concrete decline environment for the signing gate. -/
def c2SignEnv : SignEnv :=
  { sendRequestAvailable := true
    elicited := .ok (some ⟨some false, none⟩)
    accounts := [⟨"tb1qaddr", "02aa"⟩]
    defaultAccount := some ⟨"tb1qaddr", "02aa"⟩
    signPSBTResult := .ok "signedpsbt" }


/-- Concrete success environment for the C3 witness. -/
def c3CallEnv : CallEnv :=
  { network := ⟨"regtest", "regtest", "https://mempool.regtest.midl.xyz/tx/"⟩
    evmChainId := 777
    encodeFunctionResult := .ok "0xcafe"
    addIntentionResult := .ok ()
    finalizeResult := .ok ⟨some ⟨"anchortx", "rawhex"⟩, "psbt64"⟩
    signIntentionResult := .ok [7]
    sendResult := .ok ()
    receiptBlockResult := .err "timeout" }


/-- Concrete success environment for the C4 witness. -/
def c4CallEnv : CallEnv :=
  { network := ⟨"regtest", "regtest", "https://mempool.regtest.midl.xyz/tx/"⟩
    evmChainId := 777
    encodeFunctionResult := .ok "0xcafe"
    addIntentionResult := .ok ()
    finalizeResult := .ok ⟨some ⟨"anchortx2", "rawhex2"⟩, "psbt64"⟩
    signIntentionResult := .ok [9, 9]
    sendResult := .ok ()
    receiptBlockResult := .ok 12 }


/-- Concrete environment with a failing receipt wait for the C5 witness. -/
def c5CallEnv : CallEnv :=
  { network := ⟨"regtest", "regtest", "https://mempool.regtest.midl.xyz/tx/"⟩
    evmChainId := 777
    encodeFunctionResult := .ok "0xcafe"
    addIntentionResult := .ok ()
    finalizeResult := .ok ⟨some ⟨"anchortx3", "rawhex3"⟩, "psbt64"⟩
    signIntentionResult := .ok [4, 2]
    sendResult := .ok ()
    receiptBlockResult := .err "Timed out while waiting for transaction receipt" }


/-- Concrete environment for the C6 witness: one 5 000-sat UTXO cannot
cover a 10 000-sat target (the spec's failing scenario), while the same
target against a 15 000-sat UTXO selects. -/
def c6Env : EstimateEnv :=
  { accounts := [⟨"tb1qsrc", "02aa"⟩]
    defaultAccount := some ⟨"tb1qsrc", "02aa"⟩
    feeRateResult := .ok ⟨5⟩
    utxosResult := .ok [⟨"prevtx", 0, 5000⟩]
    coinSelect := fun utxos targets _fr =>
      let total : Nat := utxos.foldl (fun a u => a + u.value) 0
      let need : Nat := targets.foldl (fun a t => a + t.value) 0
      if need + 500 ≤ total then ⟨some utxos, some targets, 500⟩ else ⟨none, none, 0⟩
    satoshisToBtc := fun _ => "0.00000500" }


/-- Concrete environment for the C7 witness, with the vector sender as the
deployer and observed nonce 0. -/
def c7PrepEnv : PrepareDeployEnv :=
  { network := ⟨"regtest", "regtest", "https://mempool.regtest.midl.xyz/tx/"⟩
    encodeDeployResult := .err "unused"
    addIntentionResult := .ok ()
    finalizeResult := .ok ⟨some ⟨"btcid7", "hex7"⟩, "psbt7"⟩
    evmAddress := exampleSender
    nonceResult := .ok 0 }


/-- Concrete environment on which `estimate-btc-transfer-fee` throws: the
account resolves and the fee oracle answers, but `getUTXOs` rejects. -/
def c8Env : EstimateEnv :=
  { accounts := []
    defaultAccount := some ⟨"tb1qa", "02bb"⟩
    feeRateResult := .ok ⟨2⟩
    utxosResult := .err "network down"
    coinSelect := fun _ _ _ => ⟨none, none, 0⟩
    satoshisToBtc := fun _ => "0" }


/-! ## Theorems -/

theorem listStartsWith_nil (s : List Char) :
    listStartsWith s [] = true := by
  cases s <;> rfl


theorem listStartsWith_append (p t : List Char) :
    listStartsWith (p ++ t) p = true := by
  induction p with
  | nil => exact listStartsWith_nil t
  | cons a as ih => simp [listStartsWith, ih]


theorem listContains_nil (s : List Char) :
    listContains s [] = true := by
  induction s with
  | nil => rfl
  | cons a as ih => simp [listContains, listStartsWith_nil, ih]


theorem listContains_append_middle (s p t : List Char) :
    listContains (s ++ (p ++ t)) p = true := by
  induction s with
  | nil =>
    cases p with
    | nil => simpa using listContains_nil t
    | cons b bs =>
      have h := listStartsWith_append (b :: bs) t
      rw [List.cons_append] at h
      simp only [List.nil_append, listContains, List.append_eq]
      simp [h]
  | cons a as ih =>
    simp [listContains, ih]


theorem string_data_append (a b : String) :
    (a ++ b).data = a.data ++ b.data := by
  cases a; cases b; rfl


/-- Containment of the middle block of a three-part concatenation; used to
read a computed value back out of an interpolated response text. -/
theorem strContains_append_middle (a b c : String) :
    strContains (a ++ (b ++ c)) b = true := by
  unfold strContains
  rw [string_data_append, string_data_append]
  exact listContains_append_middle a.data b.data c.data


theorem listContains_append_left (s t p : List Char) (h : listContains t p = true) :
    listContains (s ++ t) p = true := by
  induction s with
  | nil => simpa using h
  | cons a as ih => simp [listContains, ih]


/-- Containment is preserved by prepending text. -/
theorem strContains_append_right (a b p : String) (h : strContains b p = true) :
    strContains (a ++ b) p = true := by
  unfold strContains at h ⊢
  rw [string_data_append]
  exact listContains_append_left a.data b.data p.data h


/-- A string contains a prefix of itself followed by anything. -/
theorem strContains_self_append (b c : String) :
    strContains (b ++ c) b = true := by
  unfold strContains
  rw [string_data_append]
  exact listContains_append_middle [] b.data c.data


theorem string_append_assoc (a b c : String) :
    (a ++ b) ++ c = a ++ (b ++ c) := by
  cases a with
  | mk la =>
    cases b with
    | mk lb =>
      cases c with
      | mk lc =>
        show String.mk ((la ++ lb) ++ lc) = String.mk (la ++ (lb ++ lc))
        rw [List.append_assoc]


theorem listStartsWith_refl (s : List Char) : listStartsWith s s = true := by
  induction s with
  | nil => rfl
  | cons a as ih => simp [listStartsWith, ih]


/-- Every string contains itself. -/
theorem strContains_refl (s : String) : strContains s s = true := by
  unfold strContains
  cases hs : s.data with
  | nil => rfl
  | cons a as =>
    have := listStartsWith_refl (a :: as)
    simp [listContains, this]


/-! ## Sanity checks of the cryptographic model

Known-answer tests pinning the Keccak-256 and CREATE-address
implementations to their published test vectors. -/
/-- Keccak-256 of the empty string is the well-known
`c5d2460186f7233c927e7db2dcc703c0e500b653ca82273b7bfad8045d85a470`. -/
theorem keccak256_empty_vector :
    keccak256 [] =
      [0xc5, 0xd2, 0x46, 0x01, 0x86, 0xf7, 0x23, 0x3c, 0x92, 0x7e, 0x7d, 0xb2,
       0xdc, 0xc7, 0x03, 0xc0, 0xe5, 0x00, 0xb6, 0x53, 0xca, 0x82, 0x27, 0x3b,
       0x7b, 0xfa, 0xd8, 0x04, 0x5d, 0x85, 0xa4, 0x70] := by
  decide


/-- The classic CREATE-address vector: sender
`0x6ac7ea33f8831ea9dcc53393aaa88b25a785dbf0` with nonce 0 deploys to
`0xcd234a471b72ba2f1ccf0a70fcaba648a5eecd8d`. -/
theorem getContractAddress_vector_nonce0 :
    getContractAddress exampleSender 0 =
      [0xcd, 0x23, 0x4a, 0x47, 0x1b, 0x72, 0xba, 0x2f, 0x1c, 0xcf,
       0x0a, 0x70, 0xfc, 0xab, 0xa6, 0x48, 0xa5, 0xee, 0xcd, 0x8d] := by
  decide


/-! ## The claims -/
/-- C10: constructing a `MidlConfigWrapper` succeeds exactly when the
config state has a connection and a network whose lowercased name contains
`"testnet"` or `"regtest"`; the factory accepts `MIDL_NETWORK=mainnet`
(mapping it to the bitcoin mainnet network name), yet the resulting state
is rejected by the wrapper, so everything registered on the server (which
requires a constructed wrapper) operates over testnet/regtest only. -/
theorem c10_wrapper_testnet_only :
    (∀ s : ConfigState,
      (∃ cfg, mkMidlConfigWrapper s = .ok cfg) ↔
        (s.connection = true ∧ ∃ net, s.network = some net ∧
          (strContains (strToLower net.network) "testnet" = true ∨
           strContains (strToLower net.network) "regtest" = true)))
    ∧ (∀ addr pk, (factoryState "mainnet" addr pk).network =
        some ⟨"mainnet", "bitcoin", "https://mempool.space/tx/"⟩)
    ∧ (∀ addr pk, mkMidlConfigWrapper (factoryState "mainnet" addr pk) =
        .error ("MIDL MCP Server is currently restricted to testnet/regtest. Detected network: "
          ++ "bitcoin")) := by
  refine ⟨fun s => ?_, fun addr pk => rfl, fun addr pk => rfl⟩
  obtain ⟨conn, net, accs⟩ := s
  cases conn with
  | false => simp [mkMidlConfigWrapper, validateConfig]
  | true =>
    cases net with
    | none => simp [mkMidlConfigWrapper, validateConfig]
    | some n =>
      by_cases h : (strContains (strToLower n.network) "testnet"
          || strContains (strToLower n.network) "regtest") = true
      · simp [mkMidlConfigWrapper, validateConfig, h]
        simpa using h
      · simp [mkMidlConfigWrapper, validateConfig, h]
        simpa using h


/-- C1 (refuted by the code): the `broadcast-transaction` tool broadcasts,
and `call-contract` finalizes (signs), signs the intention and submits,
each with no elicitation request anywhere in its trace — the Approval Gate
is never entered although the sensitive operations are performed and the
tools report success. -/
theorem c1_sensitive_ops_without_gate :
    (broadcastTransactionTool c1BroadcastEnv "deadbeef").2 = [.broadcast "deadbeef"]
    ∧ hasElicit (broadcastTransactionTool c1BroadcastEnv "deadbeef").2 = false
    ∧ (∃ r, (broadcastTransactionTool c1BroadcastEnv "deadbeef").1 = .ok r ∧ r.isError = false)
    ∧ hasElicit (callContract c1CallEnv "0xc0ffee" "store" none none).2 = false
    ∧ Event.finalizeBTC none ∈ (callContract c1CallEnv "0xc0ffee" "store" none none).2
    ∧ Event.signIntention "btcid" .bip322 ∈ (callContract c1CallEnv "0xc0ffee" "store" none none).2
    ∧ Event.sendBTC (sendBTCTransactionsReq [[1, 2, 3]] "btchex")
        ∈ (callContract c1CallEnv "0xc0ffee" "store" none none).2
    ∧ (∃ r, (callContract c1CallEnv "0xc0ffee" "store" none none).1 = .ok r ∧
        r.isError = false) := by
  refine ⟨rfl, rfl, ⟨_, rfl, rfl⟩, rfl, ?_, ?_, ?_, ⟨_, rfl, rfl⟩⟩ <;> decide


theorem jsTruthy_eq_true (o : Option Bool) : jsTruthy o = true ↔ o = some true := by
  cases o with
  | none => simp [jsTruthy]
  | some b => cases b <;> simp [jsTruthy]


/-- C2: the two gated tools fail closed.  A `signPSBT` (resp.
`broadcastTransaction`) call appears in the trace only when the
elicitation channel was available, resolved with an object, and that
object's affirmative boolean (`approved` resp. `confirm`) is `true`; in
every other situation (channel unavailable, rejected round-trip, falsy
response, missing or false field) the handler returns an `isError` result
and the sensitive call never happens. -/
theorem c2_gate_fails_closed :
    (∀ (env : SignEnv) (psbt : String) (address : Option String),
      (∀ p a idx, Event.signPSBT p a idx ∈ (requestPsbtSignature env psbt address).2 →
        env.sendRequestAvailable = true ∧
          ∃ form, env.elicited = .ok (some form) ∧ form.approved = some true)
      ∧ (signAffirmative env = false →
          ∃ r, (requestPsbtSignature env psbt address).1 = .ok r ∧ r.isError = true ∧
            ∀ p a idx, Event.signPSBT p a idx ∉ (requestPsbtSignature env psbt address).2))
    ∧ (∀ (env : BroadcastGateEnv) (txHex : String),
      (∀ h, Event.broadcast h ∈ (requestTransactionBroadcast env txHex).2 →
        env.sendRequestAvailable = true ∧
          ∃ form, env.elicited = .ok (some form) ∧ form.confirm = some true)
      ∧ (broadcastAffirmative env = false →
          ∃ r, (requestTransactionBroadcast env txHex).1 = .ok r ∧ r.isError = true ∧
            ∀ h, Event.broadcast h ∉ (requestTransactionBroadcast env txHex).2)) := by
  constructor
  · intro env psbt address
    obtain ⟨avail, elic, accs, defAcc, signRes⟩ := env
    cases avail with
    | false =>
      refine ⟨fun p a idx hmem => ?_, fun _ =>
        ⟨⟨"Error: Human elicitation required for signing but not supported by client.", true⟩,
          rfl, rfl, ?_⟩⟩
      · simp [requestPsbtSignature] at hmem
      · intro p a idx
        simp [requestPsbtSignature]
    | true =>
      cases elic with
      | err m =>
        refine ⟨fun p a idx hmem => ?_, fun _ =>
          ⟨⟨"Error signing PSBT: " ++ m, true⟩, rfl, rfl, ?_⟩⟩
        · simp [requestPsbtSignature] at hmem
        · intro p a idx
          simp [requestPsbtSignature]
      | ok confirmed =>
        cases confirmed with
        | none =>
          refine ⟨fun p a idx hmem => ?_, fun _ =>
            ⟨⟨"Signature request declined by user.", true⟩, rfl, rfl, ?_⟩⟩
          · simp [requestPsbtSignature] at hmem
          · intro p a idx
            simp [requestPsbtSignature]
        | some form =>
          by_cases happ : jsTruthy form.approved = true
          · have happ2 : form.approved = some true := (jsTruthy_eq_true _).mp happ
            cases hacc : resolveAccount accs defAcc address with
            | none =>
              refine ⟨fun p a idx hmem => ?_, fun haff => ?_⟩
              · simp [requestPsbtSignature, happ, hacc] at hmem
              · exfalso
                simp [signAffirmative, happ] at haff
            | some account =>
              cases signRes with
              | err m =>
                refine ⟨fun p a idx hmem => ⟨rfl, form, rfl, happ2⟩, fun haff => ?_⟩
                exfalso
                simp [signAffirmative, happ] at haff
              | ok signed =>
                refine ⟨fun p a idx hmem => ⟨rfl, form, rfl, happ2⟩, fun haff => ?_⟩
                exfalso
                simp [signAffirmative, happ] at haff
          · have happ3 : (¬ jsTruthy form.approved) = true := by
              simp only [Bool.not_eq_true] at happ
              simp [happ]
            refine ⟨fun p a idx hmem => ?_,
              fun _ => ⟨⟨"Signature request declined by user.", true⟩, ?_, rfl, ?_⟩⟩
            · simp [requestPsbtSignature, happ3] at hmem
            · simp [requestPsbtSignature, happ3]
            · intro p a idx
              simp [requestPsbtSignature, happ3]
  · intro env txHex
    obtain ⟨avail, elic, bres, exp⟩ := env
    cases avail with
    | false =>
      refine ⟨fun h hmem => ?_, fun _ =>
        ⟨⟨"Error: Human elicitation required for broadcasting but not supported by client.", true⟩,
          rfl, rfl, ?_⟩⟩
      · simp [requestTransactionBroadcast] at hmem
      · intro h
        simp [requestTransactionBroadcast]
    | true =>
      cases elic with
      | err m =>
        refine ⟨fun h hmem => ?_, fun _ =>
          ⟨⟨"Error broadcasting transaction: " ++ m, true⟩, rfl, rfl, ?_⟩⟩
        · simp [requestTransactionBroadcast] at hmem
        · intro h
          simp [requestTransactionBroadcast]
      | ok confirmed =>
        cases confirmed with
        | none =>
          refine ⟨fun h hmem => ?_, fun _ =>
            ⟨⟨"Broadcast cancelled by user.", true⟩, rfl, rfl, ?_⟩⟩
          · simp [requestTransactionBroadcast] at hmem
          · intro h
            simp [requestTransactionBroadcast]
        | some form =>
          by_cases happ : jsTruthy form.confirm = true
          · have happ2 : form.confirm = some true := (jsTruthy_eq_true _).mp happ
            cases bres with
            | err m =>
              refine ⟨fun h hmem => ⟨rfl, form, rfl, happ2⟩, fun haff => ?_⟩
              exfalso
              simp [broadcastAffirmative, happ] at haff
            | ok txId =>
              refine ⟨fun h hmem => ⟨rfl, form, rfl, happ2⟩, fun haff => ?_⟩
              exfalso
              simp [broadcastAffirmative, happ] at haff
          · have happ3 : (¬ jsTruthy form.confirm) = true := by
              simp only [Bool.not_eq_true] at happ
              simp [happ]
            refine ⟨fun h hmem => ?_,
              fun _ => ⟨⟨"Broadcast cancelled by user.", true⟩, ?_, rfl, ?_⟩⟩
            · simp [requestTransactionBroadcast, happ3] at hmem
            · simp [requestTransactionBroadcast, happ3]
            · intro h
              simp [requestTransactionBroadcast, happ3]


/-- Witness for C2: at a concrete declined elicitation (`approved: false`)
the signing gate returns an error result and performs no `signPSBT`. -/
theorem c2_gate_fails_closed_witness :
    signAffirmative c2SignEnv = false ∧
      ∃ r, (requestPsbtSignature c2SignEnv "cHNidA==" none).1 = .ok r ∧ r.isError = true ∧
        ∀ p a idx, Event.signPSBT p a idx ∉ (requestPsbtSignature c2SignEnv "cHNidA==" none).2 :=
  ⟨by decide, (c2_gate_fails_closed.1 c2SignEnv "cHNidA==" none).2 (by decide)⟩


/-- C3: in `call-contract` and `deploy-contract-source`, whenever
`signIntention` is invoked it is invoked under the BIP-322 protocol, the
`finalizeBTCTransaction` call has already succeeded and directly precedes
it in the trace, and its `txId` argument is exactly the id carried by that
finalized Bitcoin transaction (`btcTx.tx?.id || ""`, which is the
transaction's id whenever the finalize result carries one). -/
theorem c3_finalize_then_bind_sign :
    (∀ (env : CallEnv) (ca fn : String) (v fr : Option Int) (t : String) (p : SignProto),
      Event.signIntention t p ∈ (callContract env ca fn v fr).2 →
        p = SignProto.bip322 ∧
        ∃ f, env.finalizeResult = .ok f ∧ t = btcTxIdOf f ∧
          ∃ pre post, (callContract env ca fn v fr).2 =
            pre ++ Event.finalizeBTC (finalizeFeeArg fr) :: Event.signIntention t p :: post)
    ∧ (∀ (env : DeployEnv) (cn : Option String) (fr : Option Int) (t : String) (p : SignProto),
      Event.signIntention t p ∈ (deployContractSource env cn fr).2 →
        p = SignProto.bip322 ∧
        ∃ f, env.finalizeResult = .ok f ∧ t = btcTxIdOf f ∧
          ∃ pre post, (deployContractSource env cn fr).2 =
            pre ++ Event.finalizeBTC (finalizeFeeArg fr) :: Event.signIntention t p :: post)
    ∧ (∀ (f : FinalizeResult) (i : TxInfo), f.tx = some i → btcTxIdOf f = i.id) := by
  refine ⟨?_, ?_, ?_⟩
  · intro env ca fn v fr t p hmem
    obtain ⟨net, chain, enc, addi, fin, sigi, send, rec⟩ := env
    cases enc with
    | err m => simp [callContract] at hmem
    | ok d =>
      cases addi with
      | err m => simp [callContract] at hmem
      | ok u =>
        cases fin with
        | err m => simp [callContract] at hmem
        | ok f =>
          cases sigi with
          | err m =>
            simp [callContract] at hmem
            obtain ⟨ht, hp⟩ := hmem
            subst ht; subst hp
            exact ⟨rfl, f, rfl, rfl, [.addIntention], [], rfl⟩
          | ok stx =>
            cases send with
            | err m =>
              simp [callContract] at hmem
              obtain ⟨ht, hp⟩ := hmem
              subst ht; subst hp
              exact ⟨rfl, f, rfl, rfl, [.addIntention],
                [.sendBTC (sendBTCTransactionsReq [stx] (btcTxHexOf f))], rfl⟩
            | ok u2 =>
              simp [callContract] at hmem
              obtain ⟨ht, hp⟩ := hmem
              subst ht; subst hp
              exact ⟨rfl, f, rfl, rfl, [.addIntention],
                [.sendBTC (sendBTCTransactionsReq [stx] (btcTxHexOf f)),
                 .waitReceipt (keccak256 stx) 60000], rfl⟩
  · intro env cn fr t p hmem
    obtain ⟨rp, cmp, net, chain, encd, evma, non, addi, fin, sigi, send, rec, ver⟩ := env
    cases rp with
    | err m => simp [deployContractSource] at hmem
    | ok u0 =>
      cases cmp with
      | err m => simp [deployContractSource] at hmem
      | ok output =>
        cases herr : hardErrors output with
        | cons e es => simp [deployContractSource, herr] at hmem
        | nil =>
          cases hart : findArtifact output (resolveTargetName output cn) with
          | none => simp [deployContractSource, herr, hart] at hmem
          | some art =>
            cases encd with
            | err m => simp [deployContractSource, herr, hart] at hmem
            | ok d =>
              cases non with
              | err m => simp [deployContractSource, herr, hart] at hmem
              | ok nonce =>
                cases addi with
                | err m => simp [deployContractSource, herr, hart] at hmem
                | ok u =>
                  cases fin with
                  | err m => simp [deployContractSource, herr, hart] at hmem
                  | ok f =>
                    cases sigi with
                    | err m =>
                      simp [deployContractSource, herr, hart] at hmem
                      obtain ⟨ht, hp⟩ := hmem
                      subst ht; subst hp
                      exact ⟨rfl, f, rfl, rfl, [.addIntention], [], by
                        simp [deployContractSource, herr, hart]⟩
                    | ok stx =>
                      cases send with
                      | err m =>
                        simp [deployContractSource, herr, hart] at hmem
                        obtain ⟨ht, hp⟩ := hmem
                        subst ht; subst hp
                        exact ⟨rfl, f, rfl, rfl, [.addIntention],
                          [.sendBTC (sendBTCTransactionsReq [stx] (btcTxHexOf f))], by
                            simp [deployContractSource, herr, hart]⟩
                      | ok u2 =>
                        simp [deployContractSource, herr, hart] at hmem
                        obtain ⟨ht, hp⟩ := hmem
                        subst ht; subst hp
                        refine ⟨rfl, f, rfl, rfl, [.addIntention],
                          [.sendBTC (sendBTCTransactionsReq [stx] (btcTxHexOf f)),
                           .waitReceipt (keccak256 stx) 60000,
                           .fetch (deployBlockscoutBase net.id ++ "/api/v2/smart-contracts/"
                             ++ checksumAddress (getContractAddress evma nonce)
                             ++ "/verification/via/flattened-code")], by
                            simp [deployContractSource, herr, hart]⟩
  · intro f i h
    simp [btcTxIdOf, h]


/-- Witness for C3 at a concrete environment: the intention is signed with
BIP-322 over the id of the finalized transaction, after finalization. -/
theorem c3_finalize_then_bind_sign_witness :
    (Event.signIntention "anchortx" .bip322 ∈ (callContract c3CallEnv "0xc" "inc" none none).2)
    ∧ (SignProto.bip322 = SignProto.bip322 ∧
       ∃ f, c3CallEnv.finalizeResult = .ok f ∧ "anchortx" = btcTxIdOf f ∧
         ∃ pre post, (callContract c3CallEnv "0xc" "inc" none none).2 =
           pre ++ Event.finalizeBTC (finalizeFeeArg none) ::
             Event.signIntention "anchortx" .bip322 :: post) :=
  ⟨by decide, c3_finalize_then_bind_sign.1 c3CallEnv "0xc" "inc" none none
    "anchortx" .bip322 (by decide)⟩


/-- C4: submission is a single paired RPC request.  Every submission event
of `call-contract` / `deploy-contract-source` is the one
`eth_sendBTCTransactions` request with params
`[[signedIntentionBytes], rawBitcoinTxHex]` and `retryCount: 0`, each
trace carries at most one submission, and the helper constructs exactly
that request (there is no EVM-only submission path). -/
theorem c4_single_paired_submission :
    (∀ (env : CallEnv) (ca fn : String) (v fr : Option Int) (req : RpcRequest),
      Event.sendBTC req ∈ (callContract env ca fn v fr).2 →
        req.method = "eth_sendBTCTransactions" ∧ req.retryCount = 0 ∧
        ∃ stx f, env.signIntentionResult = .ok stx ∧ env.finalizeResult = .ok f ∧
          req = sendBTCTransactionsReq [stx] (btcTxHexOf f))
    ∧ (∀ (env : CallEnv) (ca fn : String) (v fr : Option Int),
        ((callContract env ca fn v fr).2.filter isSendBTCEvent).length ≤ 1)
    ∧ (∀ (env : DeployEnv) (cn : Option String) (fr : Option Int) (req : RpcRequest),
      Event.sendBTC req ∈ (deployContractSource env cn fr).2 →
        req.method = "eth_sendBTCTransactions" ∧ req.retryCount = 0 ∧
        ∃ stx f, env.signIntentionResult = .ok stx ∧ env.finalizeResult = .ok f ∧
          req = sendBTCTransactionsReq [stx] (btcTxHexOf f))
    ∧ (∀ (env : DeployEnv) (cn : Option String) (fr : Option Int),
        ((deployContractSource env cn fr).2.filter isSendBTCEvent).length ≤ 1)
    ∧ (∀ (txs : List (List Nat)) (btc : String),
        sendBTCTransactionsReq txs btc = ⟨"eth_sendBTCTransactions", txs, btc, 0⟩) := by
  refine ⟨?_, ?_, ?_, ?_, fun txs btc => rfl⟩
  · intro env ca fn v fr req hmem
    obtain ⟨net, chain, enc, addi, fin, sigi, send, rec⟩ := env
    cases enc with
    | err m => simp [callContract] at hmem
    | ok d =>
      cases addi with
      | err m => simp [callContract] at hmem
      | ok u =>
        cases fin with
        | err m => simp [callContract] at hmem
        | ok f =>
          cases sigi with
          | err m => simp [callContract] at hmem
          | ok stx =>
            cases send with
            | err m =>
              simp [callContract] at hmem
              subst hmem
              exact ⟨rfl, rfl, stx, f, rfl, rfl, rfl⟩
            | ok u2 =>
              simp [callContract] at hmem
              subst hmem
              exact ⟨rfl, rfl, stx, f, rfl, rfl, rfl⟩
  · intro env ca fn v fr
    obtain ⟨net, chain, enc, addi, fin, sigi, send, rec⟩ := env
    cases enc <;> cases addi <;> cases fin <;> cases sigi <;> cases send <;>
      simp [callContract, isSendBTCEvent]
  · intro env cn fr req hmem
    obtain ⟨rp, cmp, net, chain, encd, evma, non, addi, fin, sigi, send, rec, ver⟩ := env
    cases rp with
    | err m => simp [deployContractSource] at hmem
    | ok u0 =>
      cases cmp with
      | err m => simp [deployContractSource] at hmem
      | ok output =>
        cases herr : hardErrors output with
        | cons e es => simp [deployContractSource, herr] at hmem
        | nil =>
          cases hart : findArtifact output (resolveTargetName output cn) with
          | none => simp [deployContractSource, herr, hart] at hmem
          | some art =>
            cases encd with
            | err m => simp [deployContractSource, herr, hart] at hmem
            | ok d =>
              cases non with
              | err m => simp [deployContractSource, herr, hart] at hmem
              | ok nonce =>
                cases addi with
                | err m => simp [deployContractSource, herr, hart] at hmem
                | ok u =>
                  cases fin with
                  | err m => simp [deployContractSource, herr, hart] at hmem
                  | ok f =>
                    cases sigi with
                    | err m => simp [deployContractSource, herr, hart] at hmem
                    | ok stx =>
                      cases send with
                      | err m =>
                        simp [deployContractSource, herr, hart] at hmem
                        subst hmem
                        exact ⟨rfl, rfl, stx, f, rfl, rfl, rfl⟩
                      | ok u2 =>
                        simp [deployContractSource, herr, hart] at hmem
                        subst hmem
                        exact ⟨rfl, rfl, stx, f, rfl, rfl, rfl⟩
  · intro env cn fr
    obtain ⟨rp, cmp, net, chain, encd, evma, non, addi, fin, sigi, send, rec, ver⟩ := env
    cases rp with
    | err m => simp [deployContractSource, isSendBTCEvent]
    | ok u0 =>
      cases cmp with
      | err m => simp [deployContractSource, isSendBTCEvent]
      | ok output =>
        cases herr : hardErrors output with
        | cons e es => simp [deployContractSource, herr, isSendBTCEvent]
        | nil =>
          cases hart : findArtifact output (resolveTargetName output cn) with
          | none => simp [deployContractSource, herr, hart, isSendBTCEvent]
          | some art =>
            cases encd <;> cases non <;> cases addi <;> cases fin <;> cases sigi <;>
              cases send <;> simp [deployContractSource, herr, hart, isSendBTCEvent]


/-- Witness for C4 at a concrete environment. -/
theorem c4_single_paired_submission_witness :
    (Event.sendBTC (sendBTCTransactionsReq [[9, 9]] "rawhex2")
        ∈ (callContract c4CallEnv "0xc" "inc" none none).2)
    ∧ ((sendBTCTransactionsReq [[9, 9]] "rawhex2").method = "eth_sendBTCTransactions" ∧
       (sendBTCTransactionsReq [[9, 9]] "rawhex2").retryCount = 0 ∧
       ∃ stx f, c4CallEnv.signIntentionResult = .ok stx ∧ c4CallEnv.finalizeResult = .ok f ∧
         sendBTCTransactionsReq [[9, 9]] "rawhex2" = sendBTCTransactionsReq [stx] (btcTxHexOf f)) :=
  ⟨by decide, c4_single_paired_submission.1 c4CallEnv "0xc" "inc" none none
    (sendBTCTransactionsReq [[9, 9]] "rawhex2") (by decide)⟩


/-- C5: the receipt poll is bounded and non-fatal.  Every
`waitForTransactionReceipt` event in the two pipelines carries the
60 000 ms timeout, and when every step up to submission succeeds but the
receipt wait fails, the tool still resolves to a non-error result whose
text carries the submitted/awaiting-confirmation note. -/
theorem c5_bounded_receipt_poll_nonfatal :
    (∀ (env : CallEnv) (ca fn : String) (v fr : Option Int) (h : List Nat) (tmo : Nat),
      Event.waitReceipt h tmo ∈ (callContract env ca fn v fr).2 → tmo = 60000)
    ∧ (∀ (env : DeployEnv) (cn : Option String) (fr : Option Int) (h : List Nat) (tmo : Nat),
      Event.waitReceipt h tmo ∈ (deployContractSource env cn fr).2 → tmo = 60000)
    ∧ (∀ (env : CallEnv) (ca fn : String) (v fr : Option Int) (d : String)
        (f : FinalizeResult) (stx : List Nat) (m : String),
      env.encodeFunctionResult = .ok d → env.addIntentionResult = .ok () →
      env.finalizeResult = .ok f → env.signIntentionResult = .ok stx →
      env.sendResult = .ok () → env.receiptBlockResult = .err m →
        ∃ r, (callContract env ca fn v fr).1 = .ok r ∧ r.isError = false ∧
          strContains r.text receiptPendingNote = true)
    ∧ (∀ (env : DeployEnv) (cn : Option String) (fr : Option Int) (output : CompileOutput)
        (art : Artifact) (d : String) (nonce : Nat) (f : FinalizeResult) (stx : List Nat)
        (m : String),
      env.resolvePhase = .ok () → env.compileResult = .ok output →
      hardErrors output = [] →
      findArtifact output (resolveTargetName output cn) = some art →
      env.encodeDeployResult = .ok d → env.nonceResult = .ok nonce →
      env.addIntentionResult = .ok () → env.finalizeResult = .ok f →
      env.signIntentionResult = .ok stx → env.sendResult = .ok () →
      env.receiptBlockResult = .err m →
        ∃ r, (deployContractSource env cn fr).1 = .ok r ∧ r.isError = false ∧
          strContains r.text receiptPendingNote = true) := by
  refine ⟨?_, ?_, ?_, ?_⟩
  · intro env ca fn v fr h tmo hmem
    obtain ⟨net, chain, enc, addi, fin, sigi, send, rec⟩ := env
    cases enc <;> cases addi <;> cases fin <;> cases sigi <;> cases send <;>
      simp [callContract] at hmem <;> exact hmem.2
  · intro env cn fr h tmo hmem
    obtain ⟨rp, cmp, net, chain, encd, evma, non, addi, fin, sigi, send, rec, ver⟩ := env
    cases rp with
    | err m => simp [deployContractSource] at hmem
    | ok u0 =>
      cases cmp with
      | err m => simp [deployContractSource] at hmem
      | ok output =>
        cases herr : hardErrors output with
        | cons e es => simp [deployContractSource, herr] at hmem
        | nil =>
          cases hart : findArtifact output (resolveTargetName output cn) with
          | none => simp [deployContractSource, herr, hart] at hmem
          | some art =>
            cases encd <;> cases non <;> cases addi <;> cases fin <;> cases sigi <;>
              cases send <;> simp [deployContractSource, herr, hart] at hmem <;>
              exact hmem.2
  · intro env ca fn v fr d f stx m henc haddi hfin hsigi hsend hrec
    obtain ⟨net, chain, enc, addi, fin, sigi, send, rec⟩ := env
    simp only at henc haddi hfin hsigi hsend hrec
    subst henc; subst haddi; subst hfin; subst hsigi; subst hsend; subst hrec
    have hres : (callContract ⟨net, chain, .ok d, .ok (), .ok f, .ok stx, .ok (), .err m⟩
        ca fn v fr).1 =
        .ok ⟨callSuccessText ca fn (btcTxIdOf f) (bytesToHex0x (keccak256 stx))
          receiptPendingNote (callBlockscoutUrl net.id (bytesToHex0x (keccak256 stx))),
          false⟩ := rfl
    refine ⟨_, hres, rfl, ?_⟩
    simp only [callSuccessText]
    repeat
      first
      | exact strContains_self_append _ _
      | apply strContains_append_right
  · intro env cn fr output art d nonce f stx m hrp hcmp herr hart henc hnon haddi hfin
      hsigi hsend hrec
    obtain ⟨rp, cmp, net, chain, encd, evma, non, addi, fin, sigi, send, rec, ver⟩ := env
    simp only at hrp hcmp henc hnon haddi hfin hsigi hsend hrec
    subst hrp; subst hcmp; subst henc; subst hnon; subst haddi; subst hfin
    subst hsigi; subst hsend; subst hrec
    have hres : (deployContractSource
        ⟨.ok (), .ok output, net, chain, .ok d, evma, .ok nonce, .ok (), .ok f, .ok stx,
          .ok (), .err m, ver⟩ cn fr).1 =
        .ok ⟨deploySuccessText ((resolveTargetName output cn).getD "undefined")
          (checksumAddress (getContractAddress evma nonce)) (btcTxIdOf f)
          (bytesToHex0x (keccak256 stx)) receiptPendingNote (verificationInfoOf ver)
          (deployBlockscoutBase net.id ++ "/address/"
            ++ checksumAddress (getContractAddress evma nonce))
          net.explorerUrl, false⟩ := by
      simp [deployContractSource, herr, hart]
    refine ⟨_, hres, rfl, ?_⟩
    simp only [deploySuccessText]
    repeat
      first
      | exact strContains_self_append _ _
      | apply strContains_append_right


/-- Witness for C5: a concrete timed-out receipt wait still yields a
non-error result with the awaiting-confirmation note. -/
theorem c5_bounded_receipt_poll_nonfatal_witness :
    c5CallEnv.encodeFunctionResult = .ok "0xcafe" ∧
    c5CallEnv.receiptBlockResult = .err "Timed out while waiting for transaction receipt" ∧
    ∃ r, (callContract c5CallEnv "0xc" "inc" none none).1 = .ok r ∧ r.isError = false ∧
      strContains r.text receiptPendingNote = true :=
  ⟨rfl, rfl, c5_bounded_receipt_poll_nonfatal.2.2.1 c5CallEnv "0xc" "inc" none none
    "0xcafe" ⟨some ⟨"anchortx3", "rawhex3"⟩, "psbt64"⟩ [4, 2]
    "Timed out while waiting for transaction receipt" rfl rfl rfl rfl rfl rfl⟩


theorem strContains_append2 (a b c : String) :
    strContains (a ++ (b ++ c)) (a ++ b) = true := by
  rw [← string_append_assoc]
  exact strContains_self_append _ _


theorem strContains_append3 (pa pb pc rest : String) :
    strContains (pa ++ (pb ++ (pc ++ rest))) (pa ++ (pb ++ pc)) = true := by
  have h : pa ++ (pb ++ (pc ++ rest)) = (pa ++ (pb ++ pc)) ++ rest := by
    rw [string_append_assoc, string_append_assoc]
  rw [h]
  exact strContains_self_append _ _


/-- C6: for every recipients list and fee rate, once the account, fee-rate
and UTXO lookups have succeeded, `estimate-btc-transfer-fee` returns the
insufficient-funds error result exactly when `coinSelect` yields no inputs
or no outputs, and otherwise a non-error payload carrying the computed
fee, the fee rate used and the input/output counts. -/
theorem c6_selection_dichotomy :
    ∀ (env : EstimateEnv) (recipients : List (String × Nat)) (feeRate : Option Int)
      (fromAddr : Option String) (acc : Account) (cfr : Int) (utxos : List UTXO),
      resolveAccount env.accounts env.defaultAccount fromAddr = some acc →
      currentFeeRateOutcome env feeRate = .ok cfr →
      env.utxosResult = .ok utxos →
      (((env.coinSelect utxos (recipients.map fun r => ⟨r.1, r.2⟩) cfr).inputs = none ∨
        (env.coinSelect utxos (recipients.map fun r => ⟨r.1, r.2⟩) cfr).outputs = none) →
        estimateBtcTransferFee env recipients feeRate fromAddr =
          .ok ⟨"Error: Insufficient funds or no suitable UTXOs found for this transfer.", true⟩)
      ∧ (∀ ins outs,
          (env.coinSelect utxos (recipients.map fun r => ⟨r.1, r.2⟩) cfr).inputs = some ins →
          (env.coinSelect utxos (recipients.map fun r => ⟨r.1, r.2⟩) cfr).outputs = some outs →
          ∃ r, estimateBtcTransferFee env recipients feeRate fromAddr = .ok r ∧
            r.isError = false ∧
            strContains r.text ("Estimated Fee: "
              ++ toString (env.coinSelect utxos (recipients.map fun r => ⟨r.1, r.2⟩) cfr).fee)
              = true ∧
            strContains r.text ("\nFee Rate: " ++ (toString cfr ++ " sat/vB")) = true ∧
            strContains r.text ("\nInputs: " ++ toString ins.length) = true ∧
            strContains r.text ("\nOutputs: " ++ toString outs.length) = true) := by
  intro env recipients feeRate fromAddr acc cfr utxos hacc hcfr hutxo
  constructor
  · intro hfail
    have hcond : ((env.coinSelect utxos (recipients.map fun r => ⟨r.1, r.2⟩) cfr).inputs.isNone
        || (env.coinSelect utxos (recipients.map fun r => ⟨r.1, r.2⟩) cfr).outputs.isNone)
        = true := by
      rcases hfail with h | h <;> simp [h]
    simp [estimateBtcTransferFee, hacc, hcfr, hutxo, hcond]
  · intro ins outs hins houts
    have hcond : ((env.coinSelect utxos (recipients.map fun r => ⟨r.1, r.2⟩) cfr).inputs.isNone
        || (env.coinSelect utxos (recipients.map fun r => ⟨r.1, r.2⟩) cfr).outputs.isNone)
        = false := by
      simp [hins, houts]
    have hres : estimateBtcTransferFee env recipients feeRate fromAddr =
        .ok ⟨"Estimated Fee: "
          ++ (toString (env.coinSelect utxos (recipients.map fun r => ⟨r.1, r.2⟩) cfr).fee
          ++ (" satoshis ("
          ++ (env.satoshisToBtc (env.coinSelect utxos (recipients.map fun r => ⟨r.1, r.2⟩) cfr).fee
          ++ (" BTC)"
          ++ ("\nFee Rate: " ++ (toString cfr ++ (" sat/vB"
          ++ ("\nInputs: " ++ (toString ins.length
          ++ ("\nOutputs: " ++ toString outs.length)))))))))), false⟩ := by
      simp [estimateBtcTransferFee, hacc, hcfr, hutxo, hcond, hins, houts]
    refine ⟨_, hres, rfl, ?_, ?_, ?_, ?_⟩
    · exact strContains_append2 _ _ _
    · apply strContains_append_right
      apply strContains_append_right
      apply strContains_append_right
      apply strContains_append_right
      apply strContains_append_right
      exact strContains_append3 _ _ _ _
    · apply strContains_append_right
      apply strContains_append_right
      apply strContains_append_right
      apply strContains_append_right
      apply strContains_append_right
      apply strContains_append_right
      apply strContains_append_right
      apply strContains_append_right
      exact strContains_append2 _ _ _
    · apply strContains_append_right
      apply strContains_append_right
      apply strContains_append_right
      apply strContains_append_right
      apply strContains_append_right
      apply strContains_append_right
      apply strContains_append_right
      apply strContains_append_right
      apply strContains_append_right
      apply strContains_append_right
      exact strContains_refl _


/-- Witness for C6: with the 5 000-sat UTXO set the selection fails and
the tool reports insufficient funds. -/
theorem c6_selection_dichotomy_witness :
    resolveAccount c6Env.accounts c6Env.defaultAccount none = some ⟨"tb1qsrc", "02aa"⟩ ∧
      estimateBtcTransferFee c6Env [("tb1qdest", 10000)] (some 5) none =
        .ok ⟨"Error: Insufficient funds or no suitable UTXOs found for this transfer.", true⟩ :=
  ⟨rfl, (c6_selection_dichotomy c6Env [("tb1qdest", 10000)] (some 5) none
    ⟨"tb1qsrc", "02aa"⟩ 5 [⟨"prevtx", 0, 5000⟩] rfl rfl rfl).1 (by decide)⟩


/-- C7: the predicted contract address reported by
`prepare-contract-deploy` and `deploy-contract-source` is exactly
`getContractAddress({ from: senderEvmAddress, nonce: observedNonce })`
(the standard CREATE derivation, pinned above to its published test
vector), and at the classic vector's sender, predicting with nonce `n + 1`
(here 1) yields a different address than with nonce `n` (here 0). -/
theorem c7_predicted_address :
    (∀ (env : PrepareDeployEnv) (bytecode : String) (argsCount : Option Nat)
        (abiProvided : Bool) (fr : Option Int) (d : String) (f : FinalizeResult) (n : Nat),
      prepareDeployData env bytecode argsCount abiProvided = .ok d →
      env.addIntentionResult = .ok () → env.finalizeResult = .ok f →
      env.nonceResult = .ok n →
        ∃ r, (prepareContractDeploy env bytecode argsCount abiProvided fr).1 = .ok r ∧
          r.isError = false ∧
          strContains r.text ("Predicted Contract Address: "
            ++ checksumAddress (getContractAddress env.evmAddress n)) = true)
    ∧ (∀ (env : DeployEnv) (cn : Option String) (fr : Option Int) (output : CompileOutput)
        (art : Artifact) (d : String) (n : Nat) (f : FinalizeResult) (stx : List Nat),
      env.resolvePhase = .ok () → env.compileResult = .ok output →
      hardErrors output = [] →
      findArtifact output (resolveTargetName output cn) = some art →
      env.encodeDeployResult = .ok d → env.nonceResult = .ok n →
      env.addIntentionResult = .ok () → env.finalizeResult = .ok f →
      env.signIntentionResult = .ok stx → env.sendResult = .ok () →
        ∃ r, (deployContractSource env cn fr).1 = .ok r ∧
          r.isError = false ∧
          strContains r.text ("\nContract Address: "
            ++ checksumAddress (getContractAddress env.evmAddress n)) = true)
    ∧ getContractAddress exampleSender 1 ≠ getContractAddress exampleSender 0 := by
  refine ⟨?_, ?_, by decide⟩
  · intro env bytecode argsCount abiProvided fr d f n hd haddi hfin hnon
    obtain ⟨net, encres, addi, fin, evma, non⟩ := env
    simp only at hd haddi hfin hnon
    subst haddi; subst hfin; subst hnon
    have hres : (prepareContractDeploy ⟨net, encres, .ok (), .ok f, evma, .ok n⟩
        bytecode argsCount abiProvided fr).1 =
        .ok ⟨prepareDeploySuccessText (checksumAddress (getContractAddress evma n))
          (checksumAddress evma) f.psbt net.id, false⟩ := by
      simp [prepareContractDeploy, hd]
    refine ⟨_, hres, rfl, ?_⟩
    simp only [prepareDeploySuccessText]
    apply strContains_append_right
    exact strContains_append2 _ _ _
  · intro env cn fr output art d n f stx hrp hcmp herr hart henc hnon haddi hfin hsigi hsend
    obtain ⟨rp, cmp, net, chain, encd, evma, non, addi, fin, sigi, send, rec, ver⟩ := env
    simp only at hrp hcmp henc hnon haddi hfin hsigi hsend
    subst hrp; subst hcmp; subst henc; subst hnon; subst haddi; subst hfin
    subst hsigi; subst hsend
    cases rec with
    | ok bn =>
      have hres : (deployContractSource
          ⟨.ok (), .ok output, net, chain, .ok d, evma, .ok n, .ok (), .ok f, .ok stx,
            .ok (), .ok bn, ver⟩ cn fr).1 =
          .ok ⟨deploySuccessText ((resolveTargetName output cn).getD "undefined")
            (checksumAddress (getContractAddress evma n)) (btcTxIdOf f)
            (bytesToHex0x (keccak256 stx)) ("\nContract deployed at block: " ++ toString bn)
            (verificationInfoOf ver)
            (deployBlockscoutBase net.id ++ "/address/"
              ++ checksumAddress (getContractAddress evma n))
            net.explorerUrl, false⟩ := by
        simp [deployContractSource, herr, hart]
      refine ⟨_, hres, rfl, ?_⟩
      simp only [deploySuccessText]
      apply strContains_append_right
      apply strContains_append_right
      exact strContains_append2 _ _ _
    | err m =>
      have hres : (deployContractSource
          ⟨.ok (), .ok output, net, chain, .ok d, evma, .ok n, .ok (), .ok f, .ok stx,
            .ok (), .err m, ver⟩ cn fr).1 =
          .ok ⟨deploySuccessText ((resolveTargetName output cn).getD "undefined")
            (checksumAddress (getContractAddress evma n)) (btcTxIdOf f)
            (bytesToHex0x (keccak256 stx)) receiptPendingNote
            (verificationInfoOf ver)
            (deployBlockscoutBase net.id ++ "/address/"
              ++ checksumAddress (getContractAddress evma n))
            net.explorerUrl, false⟩ := by
        simp [deployContractSource, herr, hart]
      refine ⟨_, hres, rfl, ?_⟩
      simp only [deploySuccessText]
      apply strContains_append_right
      apply strContains_append_right
      exact strContains_append2 _ _ _


/-- Witness for C7 at a concrete environment. -/
theorem c7_predicted_address_witness :
    prepareDeployData c7PrepEnv "6001" none false = .ok "0x6001" ∧
      ∃ r, (prepareContractDeploy c7PrepEnv "6001" none false none).1 = .ok r ∧
        r.isError = false ∧
        strContains r.text ("Predicted Contract Address: "
          ++ checksumAddress (getContractAddress c7PrepEnv.evmAddress 0)) = true :=
  ⟨by decide, c7_predicted_address.1 c7PrepEnv "6001" none false none "0x6001"
    ⟨some ⟨"btcid7", "hex7"⟩, "psbt7"⟩ 0 (by decide) rfl rfl rfl⟩


/-- C8 is refuted as stated: `estimate-btc-transfer-fee` awaits
`getFeeRate`/`getUTXOs` outside any `try`/`catch`, so a rejected provider
call escapes the handler as an unhandled exception instead of a structured
failure result. -/
theorem c8_unhandled_rejection_counterexample :
    estimateBtcTransferFee c8Env [("tb1qd", 1000)] none none = .error "network down" := rfl


theorem currentFeeRateOutcome_err (env : EstimateEnv) (fr : Option Int) (m : String)
    (h : currentFeeRateOutcome env fr = .err m) : env.feeRateResult = .err m := by
  cases fr with
  | none =>
    cases henv : env.feeRateResult with
    | ok v => simp [currentFeeRateOutcome, henv] at h
    | err m2 =>
      simp [currentFeeRateOutcome, henv] at h
      rw [h]
  | some f =>
    by_cases hf : f = 0
    · subst hf
      cases henv : env.feeRateResult with
      | ok v => simp [currentFeeRateOutcome, henv] at h
      | err m2 =>
        simp [currentFeeRateOutcome, henv] at h
        rw [h]
    · simp [currentFeeRateOutcome, hf] at h


/-- C8 amended: `get-address-transactions` (whose body is inside
`try`/`catch`) always resolves to a structured result, and
`estimate-btc-transfer-fee` resolves to a structured result except that a
rejection of its un-guarded `getFeeRate`/`getUTXOs` awaits escapes as an
unhandled exception. -/
theorem c8_structured_results_amended :
    (∀ (env : AddrTxEnv) (address : String) (limit : Nat),
      ∃ r, getAddressTransactions env address limit = .ok r)
    ∧ (∀ (env : EstimateEnv) (recipients : List (String × Nat)) (feeRate : Option Int)
        (fromAddr : Option String) (m : String),
      estimateBtcTransferFee env recipients feeRate fromAddr = .error m →
        env.feeRateResult = .err m ∨ env.utxosResult = .err m) := by
  constructor
  · intro env address limit
    obtain ⟨fetchRes, fmt⟩ := env
    cases fetchRes with
    | err m => exact ⟨_, rfl⟩
    | ok res =>
      obtain ⟨rok, rstatus, rbody⟩ := res
      cases rok with
      | false => exact ⟨_, rfl⟩
      | true =>
        cases rbody with
        | err m => exact ⟨_, rfl⟩
        | ok txs => exact ⟨_, rfl⟩
  · intro env recipients feeRate fromAddr m h
    cases hacc : resolveAccount env.accounts env.defaultAccount fromAddr with
    | none => simp [estimateBtcTransferFee, hacc] at h
    | some acc =>
      cases hcfr : currentFeeRateOutcome env feeRate with
      | err m2 =>
        simp [estimateBtcTransferFee, hacc, hcfr] at h
        rw [h] at hcfr
        exact Or.inl (currentFeeRateOutcome_err env feeRate m hcfr)
      | ok cfr =>
        cases hut : env.utxosResult with
        | err mu =>
          simp [estimateBtcTransferFee, hacc, hcfr, hut] at h
          exact Or.inr (by rw [h])
        | ok utxos =>
          cases hsel : ((env.coinSelect utxos (recipients.map fun r => ⟨r.1, r.2⟩)
              cfr).inputs.isNone
              || (env.coinSelect utxos (recipients.map fun r => ⟨r.1, r.2⟩)
                cfr).outputs.isNone) with
          | true => simp [estimateBtcTransferFee, hacc, hcfr, hut, hsel] at h
          | false => simp [estimateBtcTransferFee, hacc, hcfr, hut, hsel] at h


/-- Witness for the amended C8 at the concrete throwing environment. -/
theorem c8_structured_results_amended_witness :
    c8Env.feeRateResult = .err "network down" ∨ c8Env.utxosResult = .err "network down" :=
  c8_structured_results_amended.2 c8Env [("tb1qd", 1000)] none none "network down" rfl


/-- C9 (refuted by the code): `resolveImports` has no recursion-depth or
fetched-byte cap — against a chain of `d` distinct imports it performs
exactly `d` sequential fetches, growing without bound in the input (here
`d = 5` and `d = 12` under the same generous fuel). -/
theorem c9_unbounded_fetch_chain :
    ((resolveImports 64 (chainFetchEnv 5) (chainContent 0)).map fun r => r.2) = .ok 5
    ∧ ((resolveImports 64 (chainFetchEnv 12) (chainContent 0)).map fun r => r.2) = .ok 12 := by
  exact ⟨rfl, rfl⟩


end MidlMcp
